import Mathlib

/-!
# libTAS: interception hooks and the save-file registry

A shallow embedding of

* `src/libTAS/fileio.cpp`: the stdio / POSIX file hooks and the descriptor map
  `posix_savefiles`;
* `src/library/fileio/SaveFileList.cpp`: the save-file classifiers and the registry
  operations;
* `src/library/dlhook.cpp`: the `dlopen` / `dlsym` hooks.

Conventions of the embedding.

* A `const char *` is an `Option String` (`none` is the null pointer) wherever the source
  tests or tolerates null, and a `String` where it is dereferenced unconditionally.
* Pointers and stream handles are natural numbers, `0` being the null pointer.  Open flags
  (`int oflag`) are natural numbers, the bit pattern of the flags.
* A slot of `namespace orig` is a `Bool`: `true` when the cached pointer to the real function
  is non-null.  A call through a slot that is still null is the fault `Fault.nullCall`.
* The real C library is a deterministic oracle: the value a real call returns is a function of
  the real calls made before it.  Every real call a hook makes is appended to the `calls`
  component of the state, so "no real I/O" reads "`calls` is unchanged".
* Logging (`debuglog`, `debuglogstdio`, `DEBUGLOGCALL`, the diagnostic `printf`) has no effect
  on the modelled state and is left out.
-/

namespace LibTAS

/-- Fault raised by a hook: a call through a function pointer of `namespace orig` that is
still null. -/
inductive Fault where
  /-- Call through a null function pointer. -/
  | nullCall
  /-- A null `const char *` handed to `strcmp`. -/
  | nullDeref
deriving DecidableEq, Repr

/-- First occurrence of `needle` in the list `hay`, counted from `i`. -/
def strstrFrom (needle : List Char) : List Char → Nat → Option Nat
  | [], i => if needle.isEmpty then some i else none
  | c :: cs, i => if needle.isPrefixOf (c :: cs) then some i else strstrFrom needle cs (i + 1)

/-- The C library function `strstr(haystack, needle)`: the offset of the first occurrence of
`needle` in `haystack`, `none` for the null result. -/
def strstr (haystack needle : String) : Option Nat :=
  strstrFrom needle.data haystack.data 0

/-- Conversion of a `size_t` to `ssize_t` (64 bit), as performed by `return n;` in a function
whose return type is `ssize_t`. -/
def toSsize (n : Nat) : Int :=
  if n % 2 ^ 64 < 2 ^ 63 then ((n % 2 ^ 64 : Nat) : Int) else ((n % 2 ^ 64 : Nat) : Int) - 2 ^ 64

/-! ## System interface -/

/-- The `struct stat` fields and type macros that the classifiers inspect. -/
structure Stat where
  st_mode : Nat
  /-- Value of `S_TYPEISMQ(&filestat)`. -/
  typeIsMq : Bool
  /-- Value of `S_TYPEISSEM(&filestat)`. -/
  typeIsSem : Bool
  /-- Value of `S_TYPEISSHM(&filestat)`. -/
  typeIsShm : Bool
deriving DecidableEq, Repr

/-- Outcome of `stat(file, &filestat)`: `-1` with an `errno`, or `0` with the structure
filled. -/
inductive StatResult where
  | fail (errno : Nat)
  | ok (filestat : Stat)
deriving DecidableEq, Repr

/-- The errno `ENOENT`. -/
def ENOENT : Nat := 2

/-- The open flag `O_RDONLY`. -/
def O_RDONLY : Nat := 0

/-- The open flag `O_CLOEXEC` (octal 02000000). -/
def O_CLOEXEC : Nat := 0x80000

/-- The open flag `O_CREAT` (octal 0100). -/
def O_CREAT : Nat := 0x40

/-- The open flag `O_TMPFILE` (octal 020000000 with `O_DIRECTORY`, octal 0200000). -/
def O_TMPFILE : Nat := 0x410000

/-- The macro `S_ISREG(m)`: `(m & S_IFMT) == S_IFREG`. -/
def S_ISREG (m : Nat) : Bool := m &&& 0xF000 == 0x8000

/-! ## `src/libTAS/fileio.cpp` -/

namespace Fileio

/-- Symbols that have a slot in `namespace orig` of `fileio.cpp`. -/
inductive Sym where
  | fopen | fopen64 | fprintf | vfprintf | fputc | putc | fwrite
  | open_ | open64 | openat | openat64 | creat | creat64 | close
  | write | pwrite | pwrite64
  | SDL_RWFromFile | SDL_RWFromFP
deriving DecidableEq, Repr

/-- Real library call made through a slot of `namespace orig`, with its arguments. -/
inductive RealCall where
  | fopen (filename : Option String) (modes : String)
  | fopen64 (filename : Option String) (modes : String)
  | vfprintf (stream : Nat) (format : String) (args : List Int)
  | fputc (c : Int) (stream : Nat)
  | putc (c : Int) (stream : Nat)
  | fwrite (ptr size n stream : Nat)
  | open_ (file : Option String) (oflag : Nat) (mode : Option Nat)
  | open64 (file : Option String) (oflag : Nat) (mode : Option Nat)
  | openat (fd : Int) (file : Option String) (oflag : Nat) (mode : Option Nat)
  | openat64 (fd : Int) (file : Option String) (oflag : Nat) (mode : Option Nat)
  | creat (file : Option String) (mode : Nat)
  | creat64 (file : Option String) (mode : Nat)
  | close (fd : Int)
  | write (fd : Int) (buf n : Nat)
  | pwrite (fd : Int) (buf n : Nat) (offset : Int)
  | pwrite64 (fd : Int) (buf n : Nat) (offset : Int)
  | SDL_RWFromFile (file : Option String) (mode : Option String)
  | SDL_RWFromFP (fp : Nat) (autoclose : Bool)
deriving DecidableEq, Repr

/-- What lies outside the hooks: the symbol lookup behind the `LINK_NAMESPACE` macro
(`hook.h` is not among the sources, so the lookup is a parameter) and the real C library. -/
structure Env where
  /-- Result of `LINK_NAMESPACE(sym, nullptr)`: does the lookup of the real symbol succeed. -/
  resolve : Sym → Bool
  /-- Value returned by a real call, given the real calls made before it. -/
  real : List RealCall → RealCall → Int
  /-- Outcome of the system call `stat`, given the real calls made before it. -/
  stat : List RealCall → String → StatResult

/-- Process state read and written by the hooks of `fileio.cpp`. -/
structure State where
  /-- The flag `config.prevent_savefiles`. -/
  prevent_savefiles : Bool
  /-- The slots `orig::sym`: `true` when non-null. -/
  orig : Sym → Bool
  /-- The descriptor map `static std::map<int, std::string> posix_savefiles`, as an
  association list. -/
  posix_savefiles : List (Int × String)
  /-- Real calls made so far, oldest first. -/
  calls : List RealCall
  /-- The variable `static bool inited` of the static function `isSaveFile`. -/
  inited : Bool

/-- Modelled from the spec: the macro `LINK_NAMESPACE(sym, nullptr)` of `hook.h`, which is not
among the sources.  A slot is populated at most once; when the lookup fails it stays empty. -/
def LINK_NAMESPACE (env : Env) (orig : Sym → Bool) (sym : Sym) : Sym → Bool :=
  fun x => if x = sym then orig x || env.resolve x else orig x

/-- Symbols linked by `link_stdiofileio`, in order. -/
def stdioSyms : List Sym :=
  [Sym.fopen, Sym.fopen64, Sym.fprintf, Sym.vfprintf, Sym.fputc, Sym.putc, Sym.fwrite]

/-- Symbols linked by `link_posixfileio`, in order. -/
def posixSyms : List Sym :=
  [Sym.open_, Sym.open64, Sym.openat, Sym.openat64, Sym.creat, Sym.creat64, Sym.close,
    Sym.write, Sym.pwrite, Sym.pwrite64]

/-- The function `link_stdiofileio`. -/
def link_stdiofileio (env : Env) (s : State) : State :=
  { s with orig := List.foldl (LINK_NAMESPACE env) s.orig stdioSyms }

/-- The function `link_posixfileio`. -/
def link_posixfileio (env : Env) (s : State) : State :=
  { s with orig := List.foldl (LINK_NAMESPACE env) s.orig posixSyms }

/-- The guard `if (!orig::sym) link_posixfileio();` that opens a POSIX hook. -/
def ensurePosix (env : Env) (s : State) (sym : Sym) : State :=
  if s.orig sym then s else link_posixfileio env s

/-- The guard `if (!orig::sym) link_stdiofileio();` that opens a stdio hook. -/
def ensureStdio (env : Env) (s : State) (sym : Sym) : State :=
  if s.orig sym then s else link_stdiofileio env s

/-- Call `orig::sym(args)`: a fault when the slot is null, otherwise the real call is made and
recorded. -/
def callOrig (env : Env) (s : State) (sym : Sym) (c : RealCall) : Except Fault (Int × State) :=
  if s.orig sym then .ok (env.real s.calls c, { s with calls := s.calls ++ [c] })
  else .error Fault.nullCall

/-- The test `posix_savefiles.find(fd) != posix_savefiles.end()`. -/
def registered (s : State) (fd : Int) : Bool :=
  (s.posix_savefiles.lookup fd).isSome

/-- The hook `write` (fileio.cpp, lines 464-482). -/
def write (env : Env) (s : State) (fd : Int) (buf n : Nat) : Except Fault (Int × State) :=
  let s1 := ensurePosix env s Sym.write
  if !s1.orig Sym.write then .ok (-1, s1)
  else if s1.prevent_savefiles && registered s1 fd then .ok (toSsize n, s1)
  else callOrig env s1 Sym.write (RealCall.write fd buf n)

/-- The hook `pwrite` (fileio.cpp, lines 484-496). -/
def pwrite (env : Env) (s : State) (fd : Int) (buf n : Nat) (offset : Int) :
    Except Fault (Int × State) :=
  if !s.orig Sym.pwrite then .ok (toSsize n, s)
  else if s.prevent_savefiles && registered s fd then .ok (toSsize n, s)
  else callOrig env s Sym.pwrite (RealCall.pwrite fd buf n offset)

/-- The hook `pwrite64` (fileio.cpp, lines 498-510). -/
def pwrite64 (env : Env) (s : State) (fd : Int) (buf n : Nat) (offset : Int) :
    Except Fault (Int × State) :=
  if !s.orig Sym.pwrite64 then .ok (toSsize n, s)
  else if s.prevent_savefiles && registered s fd then .ok (toSsize n, s)
  else callOrig env s Sym.pwrite64 (RealCall.pwrite64 fd buf n offset)

/-- The hook `fopen` (fileio.cpp, lines 97-116); the result is the `FILE *`, `0` for `NULL`. -/
def fopen (env : Env) (s : State) (filename : Option String) (modes : String) :
    Except Fault (Int × State) :=
  let s1 := ensureStdio env s Sym.fopen
  if !s1.orig Sym.fopen then .ok (0, s1)
  else callOrig env s1 Sym.fopen (RealCall.fopen filename modes)

/-- The hook `fopen64` (fileio.cpp, lines 118-134). -/
def fopen64 (env : Env) (s : State) (filename : Option String) (modes : String) :
    Except Fault (Int × State) :=
  let s1 := ensureStdio env s Sym.fopen64
  if !s1.orig Sym.fopen64 then .ok (0, s1)
  else callOrig env s1 Sym.fopen64 (RealCall.fopen64 filename modes)

/-- The hook `fprintf` (fileio.cpp, lines 136-148): the variadic arguments are gathered in a
`va_list` and handed to `orig::vfprintf`. -/
def fprintf (env : Env) (s : State) (stream : Nat) (format : String) (args : List Int) :
    Except Fault (Int × State) :=
  callOrig env s Sym.vfprintf (RealCall.vfprintf stream format args)

/-- The hook `vfprintf` (fileio.cpp, lines 150-154). -/
def vfprintf (env : Env) (s : State) (stream : Nat) (format : String) (arg : List Int) :
    Except Fault (Int × State) :=
  callOrig env s Sym.vfprintf (RealCall.vfprintf stream format arg)

/-- The hook `fputc` (fileio.cpp, lines 156-160). -/
def fputc (env : Env) (s : State) (c : Int) (stream : Nat) : Except Fault (Int × State) :=
  callOrig env s Sym.fputc (RealCall.fputc c stream)

/-- The hook `putc` (fileio.cpp, lines 162-166). -/
def putc (env : Env) (s : State) (c : Int) (stream : Nat) : Except Fault (Int × State) :=
  callOrig env s Sym.putc (RealCall.putc c stream)

/-- The hook `fwrite` (fileio.cpp, lines 168-180). -/
def fwrite (env : Env) (s : State) (ptr size n stream : Nat) : Except Fault (Int × State) :=
  let s1 := ensureStdio env s Sym.fwrite
  if !s1.orig Sym.fwrite then .ok (0, s1)
  else callOrig env s1 Sym.fwrite (RealCall.fwrite ptr size n stream)

/-- The assignment `posix_savefiles[fd] = file`. -/
def mapAssign (m : List (Int × String)) (fd : Int) (file : String) : List (Int × String) :=
  (fd, file) :: m.filter (fun kv => kv.1 != fd)

/-- The static function `isSaveFile(file, oflag)` of fileio.cpp (lines 208-248): its value and
the state it leaves (the first call that gets past the two early tests clears
`posix_savefiles`). -/
def isSaveFile (env : Env) (s : State) (file : Option String) (oflag : Nat) : Bool × State :=
  if !s.prevent_savefiles then (false, s)
  else
    match file with
    | none => (false, s)
    | some f =>
      let s1 := if !s.inited then { s with posix_savefiles := [], inited := true } else s
      if oflag &&& 0x3 == O_RDONLY then (false, s1)
      else
        match env.stat s1.calls f with
        | StatResult.fail errno => if errno == ENOENT then (true, s1) else (false, s1)
        | StatResult.ok filestat => if S_ISREG filestat.st_mode then (true, s1) else (false, s1)

/-- The tail shared by the four `open` hooks: `if (isSaveFile(file, oflag))
posix_savefiles[fd] = std::string(file); return fd;`. -/
def registerIfSaveFile (env : Env) (s : State) (file : Option String) (oflag : Nat)
    (fd : Int) : Int × State :=
  match isSaveFile env s file oflag, file with
  | (true, s1), some f => (fd, { s1 with posix_savefiles := mapAssign s1.posix_savefiles fd f })
  | (_, s1), _ => (fd, s1)

/-- The argument `mode` handed to the real `open`: read from the variadic arguments only when
`O_CREAT` or `O_TMPFILE` is set. -/
def modeArg (oflag mode : Nat) : Option Nat :=
  if oflag &&& O_CREAT != 0 || oflag &&& O_TMPFILE != 0 then some mode else none

/-- The hook `open` (fileio.cpp, lines 250-286). -/
def open_ (env : Env) (s : State) (file : Option String) (oflag mode : Nat) :
    Except Fault (Int × State) :=
  let s1 := ensurePosix env s Sym.open_
  if !s1.orig Sym.open_ then .ok (-1, s1)
  else
    match callOrig env s1 Sym.open_ (RealCall.open_ file oflag (modeArg oflag mode)) with
    | .error e => .error e
    | .ok (fd, s2) => .ok (registerIfSaveFile env s2 file oflag fd)

/-- The hook `open64` (fileio.cpp, lines 288-324). -/
def open64 (env : Env) (s : State) (file : Option String) (oflag mode : Nat) :
    Except Fault (Int × State) :=
  let s1 := ensurePosix env s Sym.open64
  if !s1.orig Sym.open64 then .ok (-1, s1)
  else
    match callOrig env s1 Sym.open64 (RealCall.open64 file oflag (modeArg oflag mode)) with
    | .error e => .error e
    | .ok (fd, s2) => .ok (registerIfSaveFile env s2 file oflag fd)

/-- The hook `openat` (fileio.cpp, lines 326-362). -/
def openat (env : Env) (s : State) (fd : Int) (file : Option String) (oflag mode : Nat) :
    Except Fault (Int × State) :=
  let s1 := ensurePosix env s Sym.openat
  if !s1.orig Sym.openat then .ok (-1, s1)
  else
    match callOrig env s1 Sym.openat (RealCall.openat fd file oflag (modeArg oflag mode)) with
    | .error e => .error e
    | .ok (newfd, s2) => .ok (registerIfSaveFile env s2 file oflag newfd)

/-- The hook `openat64` (fileio.cpp, lines 364-400). -/
def openat64 (env : Env) (s : State) (fd : Int) (file : Option String) (oflag mode : Nat) :
    Except Fault (Int × State) :=
  let s1 := ensurePosix env s Sym.openat64
  if !s1.orig Sym.openat64 then .ok (-1, s1)
  else
    match callOrig env s1 Sym.openat64 (RealCall.openat64 fd file oflag (modeArg oflag mode)) with
    | .error e => .error e
    | .ok (newfd, s2) => .ok (registerIfSaveFile env s2 file oflag newfd)

/-- The tail shared by `creat` and `creat64`: `if (file) posix_savefiles[fd] =
std::string(file); return fd;`. -/
def registerCreated (s : State) (file : Option String) (fd : Int) : Int × State :=
  match file with
  | some f => (fd, { s with posix_savefiles := mapAssign s.posix_savefiles fd f })
  | none => (fd, s)

/-- The hook `creat` (fileio.cpp, lines 402-420). -/
def creat (env : Env) (s : State) (file : Option String) (mode : Nat) :
    Except Fault (Int × State) :=
  let s1 := ensurePosix env s Sym.creat
  if !s1.orig Sym.creat then .ok (-1, s1)
  else
    match callOrig env s1 Sym.creat (RealCall.creat file mode) with
    | .error e => .error e
    | .ok (fd, s2) => .ok (registerCreated s2 file fd)

/-- The hook `creat64` (fileio.cpp, lines 422-440). -/
def creat64 (env : Env) (s : State) (file : Option String) (mode : Nat) :
    Except Fault (Int × State) :=
  let s1 := ensurePosix env s Sym.creat64
  if !s1.orig Sym.creat64 then .ok (-1, s1)
  else
    match callOrig env s1 Sym.creat64 (RealCall.creat64 file mode) with
    | .error e => .error e
    | .ok (fd, s2) => .ok (registerCreated s2 file fd)

/-- The hook `close` (fileio.cpp, lines 442-462). -/
def close (env : Env) (s : State) (fd : Int) : Except Fault (Int × State) :=
  let s1 := ensurePosix env s Sym.close
  if !s1.orig Sym.close then .ok (-1, s1)
  else
    match callOrig env s1 Sym.close (RealCall.close fd) with
    | .error e => .error e
    | .ok (rv, s2) =>
      if registered s2 fd then
        .ok (rv, { s2 with posix_savefiles := s2.posix_savefiles.filter (fun kv => kv.1 != fd) })
      else .ok (rv, s2)

/-- The state right after a POSIX hook has made the real call `c` through `orig::sym`. -/
def afterReal (env : Env) (s : State) (sym : Sym) (c : RealCall) : State :=
  { ensurePosix env s sym with calls := s.calls ++ [c] }

/-- What C12 asks of an `open` hook whose real call returned `d` and left the state `s2`, for
a descriptor that was not a key of the map in the prior state `s`: the hook returns `d`;
afterwards `d` is registered if and only if `isSaveFile(file, oflag)` classifies the target as
a save file; and when it does, `d` is mapped to the path.  The last part needs no
assumption on the prior state. -/
def RegistersIffClassified (env : Env) (s s2 : State) (file : Option String) (oflag : Nat)
    (d : Int) (r : Except Fault (Int × State)) : Prop :=
  ∃ s1, r = .ok (d, s1) ∧
    (registered s d = false →
      (registered s1 d = true ↔ (isSaveFile env s2 file oflag).1 = true)) ∧
    ((isSaveFile env s2 file oflag).1 = true →
      ∃ p, file = some p ∧ s1.posix_savefiles.lookup d = some p)

/-- The outcome of a hook of the `open` family, called in state `s` with path `file`, whose
real call failed and which does not register the result: the hook returns -1; the map
afterwards is the map before the call, emptied when the call is the first to reach the
initialisation `if (!inited) posix_savefiles.clear()` of `isSaveFile`; and -1 is not a key
afterwards unless it was one before. -/
def FailsWithoutRegistering (s : State) (file : Option String)
    (r : Except Fault (Int × State)) : Prop :=
  ∃ s1, r = .ok (-1, s1) ∧
    s1.posix_savefiles =
      (if (s.prevent_savefiles && file.isSome && !s.inited) = true then []
        else s.posix_savefiles) ∧
    (registered s (-1) = false → registered s1 (-1) = false)

/-- A function pointer stored in the member `write` of an `SDL_RWops`: the callback the real
SDL library installed (told apart by a tag), or the function `dummyWrite` of fileio.cpp. -/
inductive WriteCallback where
  | real (tag : Nat)
  | dummyWrite
deriving DecidableEq, Repr

/-- The object a non-null `SDL_RWops *` points to: its member `write`, and the remaining
members, which the hooks do not touch. -/
structure SDL_RWops where
  write : WriteCallback
  rest : Nat
deriving DecidableEq, Repr

/-- The real SDL library: the object behind the handle each real function returns, `none`
for a null handle. -/
structure SdlEnv where
  real_SDL_RWFromFile : Option String → Option String → Option SDL_RWops
  real_SDL_RWFromFP : Nat → Bool → Option SDL_RWops

/-- The function `dummyWrite` (fileio.cpp, lines 43-50): logs and returns `num`. -/
def dummyWrite (_context : SDL_RWops) (_ptr _size num : Nat) : Nat :=
  num

/-- The statement `if (!config.prevent_savefiles) { if (handle) handle->write = dummyWrite; }`
shared by the two SDL hooks: the object behind the handle afterwards. -/
def replaceWrite (s : State) (handle : Option SDL_RWops) : Option SDL_RWops :=
  if !s.prevent_savefiles then
    match handle with
    | some h => some { h with write := WriteCallback.dummyWrite }
    | none => none
  else handle

/-- The hook `SDL_RWFromFile` (fileio.cpp, lines 52-63). -/
def SDL_RWFromFile (sdl : SdlEnv) (s : State) (file mode : Option String) :
    Except Fault (Option SDL_RWops × State) :=
  if !s.orig Sym.SDL_RWFromFile then .error Fault.nullCall
  else
    .ok (replaceWrite s (sdl.real_SDL_RWFromFile file mode),
      { s with calls := s.calls ++ [RealCall.SDL_RWFromFile file mode] })

/-- The hook `SDL_RWFromFP` (fileio.cpp, lines 65-76). -/
def SDL_RWFromFP (sdl : SdlEnv) (s : State) (fp : Nat) (autoclose : Bool) :
    Except Fault (Option SDL_RWops × State) :=
  if !s.orig Sym.SDL_RWFromFP then .error Fault.nullCall
  else
    .ok (replaceWrite s (sdl.real_SDL_RWFromFP fp autoclose),
      { s with calls := s.calls ++ [RealCall.SDL_RWFromFP fp autoclose] })

/-- Symbols linked by `link_sdlfileio`, in order. -/
def sdlSyms : List Sym :=
  [Sym.SDL_RWFromFile, Sym.SDL_RWFromFP]

/-- The function `link_sdlfileio` (fileio.cpp, lines 78-82); the macro `LINK_NAMESPACE_SDL2`
is taken to populate the slot like `LINK_NAMESPACE`. -/
def link_sdlfileio (env : Env) (s : State) : State :=
  { s with orig := List.foldl (LINK_NAMESPACE env) s.orig sdlSyms }

end Fileio

/-! ## `src/library/fileio/SaveFileList.cpp` -/

namespace SaveFileList

/-- The fields of `class SaveFile` that `SaveFileList.cpp` reads and writes. -/
structure SaveFile where
  /-- Canonical path of the file. -/
  filename : String
  /-- Most recent descriptor of the entity. -/
  fd : Int
  /-- Most recent `FILE *` of the entity, `0` for `nullptr`. -/
  stream : Nat
  /-- Tombstone. -/
  removed : Bool
deriving DecidableEq, Repr

/-- What lies outside `SaveFileList.cpp` at the time of one call: the configuration, the real
file system, and the methods of `class SaveFile` (`SaveFile.cpp` is not among the sources). -/
structure World where
  /-- The flag `shared_config.prevent_savefiles`. -/
  prevent_savefiles : Bool
  /-- The static method `SaveFile::canonicalizeFile`; `none` is the null result. -/
  canonicalizeFile : Option String → Option String
  /-- The system call `stat`. -/
  stat : String → StatResult
  /-- The value of `access(file, W_OK)`. -/
  access_W_OK : Option String → Int
  /-- Descriptor, handle and tombstone an entity has after `SaveFile::open(modes)`. -/
  openModes : SaveFile → String → SaveFile
  /-- Descriptor, handle and tombstone an entity has after `SaveFile::open(oflag)`. -/
  openOflag : SaveFile → Nat → SaveFile
  /-- Descriptor and handle an entity has after `SaveFile::closeFile()`, and the value
  returned. -/
  closeEffect : SaveFile → Int × SaveFile
  /-- Descriptor and handle an entity has after `SaveFile::remove()`, and the value
  returned. -/
  removeEffect : SaveFile → Int × SaveFile

/-- The registry `std::vector<std::unique_ptr<SaveFile>>` returned by `savefiles()`, in
insertion order. -/
abbrev Registry := List SaveFile

/-- Modelled from the spec: the constructor `SaveFile::SaveFile(file)`, of `SaveFile.cpp`
which is not among the sources.  The filename is the canonical path; the entity has no
descriptor, no handle and is not removed.  The spec leaves open what the filename is when the
path cannot be canonicalized: the path is then kept as given. -/
def SaveFile.new (w : World) (file : Option String) : SaveFile :=
  { filename := (w.canonicalizeFile file).getD (file.getD ""), fd := 0, stream := 0,
    removed := false }

/-- Modelled from the spec: the method `SaveFile::isSameFile(file)`, of `SaveFile.cpp` which is
not among the sources.  Entities are keyed by canonical filename: the path names the entity
when it canonicalizes to the entity's filename. -/
def SaveFile.isSameFile (w : World) (e : SaveFile) (file : Option String) : Bool :=
  match w.canonicalizeFile file with
  | none => false
  | some canonfile => e.filename == canonfile

/-- Modelled from the spec: the method `SaveFile::open(modes)`, of `SaveFile.cpp` which is not
among the sources.  The entity keeps its identity (filename) and the call returns the entity's
handle; handle, descriptor and tombstone after the call are the world's. -/
def SaveFile.open_modes (w : World) (e : SaveFile) (modes : String) : Nat × SaveFile :=
  let e1 := { w.openModes e modes with filename := e.filename }
  (e1.stream, e1)

/-- Modelled from the spec: the method `SaveFile::open(oflag)`, of `SaveFile.cpp` which is not
among the sources.  The entity keeps its identity (filename) and the call returns the entity's
descriptor; handle, descriptor and tombstone after the call are the world's. -/
def SaveFile.open_oflag (w : World) (e : SaveFile) (oflag : Nat) : Int × SaveFile :=
  let e1 := { w.openOflag e oflag with filename := e.filename }
  (e1.fd, e1)

/-- Modelled from the spec: the method `SaveFile::closeFile()`, of `SaveFile.cpp` which is not
among the sources.  The entity is retained with its filename and tombstone; only its live
descriptor and handle change. -/
def SaveFile.closeFile (w : World) (e : SaveFile) : Int × SaveFile :=
  ((w.closeEffect e).1, { (w.closeEffect e).2 with filename := e.filename, removed := e.removed })

/-- Modelled from the spec: the method `SaveFile::remove()`, of `SaveFile.cpp` which is not
among the sources.  The entity is marked removed and keeps its filename. -/
def SaveFile.remove (w : World) (e : SaveFile) : Int × SaveFile :=
  ((w.removeEffect e).1, { (w.removeEffect e).2 with filename := e.filename, removed := true })

/-- The loop `for (const auto& savefile : savefiles()) if (p(savefile)) return f(savefile);`:
the first entity that satisfies `p` is handed to `f`, whose value is returned and whose effect
on the entity is stored; `none` when the loop falls through. -/
def forFirst {R : Type} (p : SaveFile → Bool) (f : SaveFile → R × SaveFile) :
    Registry → Option (R × Registry)
  | [] => none
  | e :: es =>
    if p e then some ((f e).1, (f e).2 :: es)
    else (forFirst p f es).map (fun r => (r.1, e :: r.2))

/-- The classifier `isSaveFile(const char *file)` (SaveFileList.cpp, lines 88-127). -/
def isSaveFile (w : World) (file : Option String) : Bool :=
  if !w.prevent_savefiles then false
  else
    match file with
    | none => false
    | some f =>
      match w.stat f with
      | StatResult.fail errno => if errno == ENOENT then true else false
      | StatResult.ok filestat =>
        if !S_ISREG filestat.st_mode then false
        else if filestat.typeIsMq || filestat.typeIsSem || filestat.typeIsShm then false
        else if (strstr f "/dev/shm").isSome then false
        else true

/-- The classifier `isSaveFile(const char *file, const char *modes)` (SaveFileList.cpp, lines
52-64). -/
def isSaveFile_modes (w : World) (reg : Registry) (file : Option String) (modes : String) :
    Bool :=
  if reg.any (fun savefile => savefile.isSameFile w file) then true
  else if !((strstr modes "w").isSome || (strstr modes "a").isSome || (strstr modes "+").isSome)
  then false
  else isSaveFile w file

/-- The classifier `isSaveFile(const char *file, int oflag)` (SaveFileList.cpp, lines
66-85). -/
def isSaveFile_oflag (w : World) (reg : Registry) (file : Option String) (oflag : Nat) : Bool :=
  if reg.any (fun savefile => savefile.isSameFile w file) then true
  else if oflag &&& 0x3 == O_RDONLY then false
  else if oflag &&& O_CLOEXEC != 0 then false
  else isSaveFile w file

/-- The function `openSaveFile(const char *file, const char *modes)` (SaveFileList.cpp, lines
129-139): the `FILE *` returned and the registry afterwards. -/
def openSaveFile_modes (w : World) (reg : Registry) (file : Option String) (modes : String) :
    Nat × Registry :=
  match forFirst (fun e => e.isSameFile w file) (fun e => e.open_modes w modes) reg with
  | some r => r
  | none =>
    (((SaveFile.new w file).open_modes w modes).1,
      reg ++ [((SaveFile.new w file).open_modes w modes).2])

/-- The function `openSaveFile(const char *file, int oflag)` (SaveFileList.cpp, lines
141-151): the descriptor returned and the registry afterwards. -/
def openSaveFile_oflag (w : World) (reg : Registry) (file : Option String) (oflag : Nat) :
    Int × Registry :=
  match forFirst (fun e => e.isSameFile w file) (fun e => e.open_oflag w oflag) reg with
  | some r => r
  | none =>
    (((SaveFile.new w file).open_oflag w oflag).1,
      reg ++ [((SaveFile.new w file).open_oflag w oflag).2])

/-- The function `closeSaveFile(int fd)` (SaveFileList.cpp, lines 153-162). -/
def closeSaveFile_fd (w : World) (reg : Registry) (fd : Int) : Int × Registry :=
  match forFirst (fun e => e.fd == fd) (fun e => e.closeFile w) reg with
  | some r => r
  | none => (1, reg)

/-- The function `closeSaveFile(FILE *stream)` (SaveFileList.cpp, lines 164-173). -/
def closeSaveFile_stream (w : World) (reg : Registry) (stream : Nat) : Int × Registry :=
  match forFirst (fun e => e.stream == stream) (fun e => e.closeFile w) reg with
  | some r => r
  | none => (1, reg)

/-- The function `removeSaveFile` (SaveFileList.cpp, lines 175-193). -/
def removeSaveFile (w : World) (reg : Registry) (file : Option String) : Int × Registry :=
  match forFirst (fun e => e.isSameFile w file) (fun e => e.remove w) reg with
  | some r => r
  | none =>
    if w.prevent_savefiles then
      (w.access_W_OK file, reg ++ [((SaveFile.new w file).remove w).2])
    else (1, reg)

/-- The function `renameSaveFile` (SaveFileList.cpp, lines 195-226). -/
def renameSaveFile (w : World) (reg : Registry) (oldfile newfile : Option String) :
    Int × Registry :=
  match w.canonicalizeFile newfile with
  | none => (-1, reg)
  | some newfilestr =>
    let reg1 := reg.filter (fun s => !s.isSameFile w newfile)
    match forFirst (fun e => e.isSameFile w oldfile)
        (fun e => ((0 : Int), { e with filename := newfilestr })) reg1 with
    | some r => r
    | none =>
      if w.prevent_savefiles then
        (w.access_W_OK oldfile,
          reg1 ++ [{ ((SaveFile.new w oldfile).open_modes w "rb").2 with filename := newfilestr }])
      else (1, reg1)

/-- The function `getSaveFileFd` (SaveFileList.cpp, lines 228-237). -/
def getSaveFileFd (w : World) (reg : Registry) (file : Option String) : Int :=
  match reg.find? (fun e => e.isSameFile w file) with
  | some savefile => savefile.fd
  | none => 0

/-- The function `isSaveFileRemoved` (SaveFileList.cpp, lines 239-248). -/
def isSaveFileRemoved (w : World) (reg : Registry) (file : Option String) : Bool :=
  match reg.find? (fun e => e.isSameFile w file) with
  | some savefile => savefile.removed
  | none => true

/-- A call of one of the registry operations, with its arguments. -/
inductive Op where
  | openModes (file : Option String) (modes : String)
  | openOflag (file : Option String) (oflag : Nat)
  | closeFd (fd : Int)
  | closeStream (stream : Nat)
  | remove (file : Option String)
  | rename (oldfile newfile : Option String)
deriving DecidableEq, Repr

/-- The registry after one call. -/
def step (w : World) (reg : Registry) : Op → Registry
  | Op.openModes file modes => (openSaveFile_modes w reg file modes).2
  | Op.openOflag file oflag => (openSaveFile_oflag w reg file oflag).2
  | Op.closeFd fd => (closeSaveFile_fd w reg fd).2
  | Op.closeStream stream => (closeSaveFile_stream w reg stream).2
  | Op.remove file => (removeSaveFile w reg file).2
  | Op.rename oldfile newfile => (renameSaveFile w reg oldfile newfile).2

/-- The registry after a sequence of calls, each made in the world of its time, starting
from `reg`. -/
def run (reg : Registry) : List (World × Op) → Registry
  | [] => reg
  | c :: cs => run (step c.1 reg c.2) cs

/-- The paths whose canonical form keys the entity a call may construct: the path opened or
removed.  (`renameSaveFile` keys the entity it constructs by the canonical form of `newfile`,
which it has checked.) -/
def Op.keyPaths : Op → List (Option String)
  | Op.openModes file _ => [file]
  | Op.openOflag file _ => [file]
  | Op.closeFd _ => []
  | Op.closeStream _ => []
  | Op.remove file => [file]
  | Op.rename _ _ => []

/-- The assignment `savefile->filename = newfilestr` applied to the entity keyed by
`oldname`, every other entity left as it is. -/
def retarget (oldname newfilestr : String) (e : SaveFile) : SaveFile :=
  if e.filename = oldname then { e with filename := newfilestr } else e

/-- The uniqueness invariant of the registry: no two entities have the same filename. -/
def Unique (reg : Registry) : Prop :=
  (reg.map SaveFile.filename).Nodup

end SaveFileList

/-! ## `src/library/dlhook.cpp` -/

namespace Dlhook

/-- The pseudo-handle `RTLD_DEFAULT`, the null pointer. -/
def RTLD_DEFAULT : Nat := 0

/-- The field of `Dl_info` that the hook reads. -/
structure Dl_info where
  dli_fname : String
deriving DecidableEq, Repr

/-- What lies outside the hooks of `dlhook.cpp`. -/
structure Env where
  /-- The value of `GlobalState::isNative()`. -/
  isNative : Bool
  /-- Is the result of `_dl_sym(RTLD_NEXT, "dlopen", ...)` non-null. -/
  dl_sym_dlopen : Bool
  /-- Is the result of `_dl_sym(RTLD_NEXT, "dlsym", ...)` non-null. -/
  dl_sym_dlsym : Bool
  /-- The real `dlopen`: the handle returned, `0` for null. -/
  real_dlopen : Option String → Int → Nat
  /-- The real `dlsym`: the address returned, and what `dlerror()` reports right after the
  call (`none` for a null result, that is, no error). -/
  real_dlsym : Nat → Option String → Nat × Option String
  /-- The function `dladdr`: `none` when it returns `0`. -/
  dladdr : Nat → Option Dl_info
  /-- Address of the hook `dlopen` itself. -/
  addr_dlopen : Nat
  /-- Address of the hook `dlsym` itself. -/
  addr_dlsym : Nat

/-- Process state of `dlhook.cpp`. -/
structure State where
  /-- Is `orig::dlopen` non-null. -/
  orig_dlopen : Bool
  /-- Is `orig::dlsym` non-null. -/
  orig_dlsym : Bool
  /-- The set `libraries()`, in the iteration order of `std::set<std::string>`. -/
  libraries : List String
deriving DecidableEq, Repr

/-- Insertion into a `std::set<std::string>` kept as a strictly increasing list. -/
def setInsert (x : String) : List String → List String
  | [] => [x]
  | y :: ys => if x < y then x :: y :: ys else if x = y then y :: ys else y :: setInsert x ys

/-- The function `find_lib` (dlhook.cpp, lines 39-47). -/
def find_lib (s : State) (library : String) : String :=
  match s.libraries.find? (fun itr => (strstr itr library).isSome) with
  | some itr => itr
  | none => ""

/-- The bootstrap `if (!orig::dlopen) orig::dlopen = _dl_sym(RTLD_NEXT, "dlopen", ...)`. -/
def linkDlopen (env : Env) (s : State) : State :=
  if !s.orig_dlopen then { s with orig_dlopen := env.dl_sym_dlopen } else s

/-- The bootstrap `if (!orig::dlsym) orig::dlsym = _dl_sym(RTLD_NEXT, "dlsym", ...)`. -/
def linkDlsym (env : Env) (s : State) : State :=
  if !s.orig_dlsym then { s with orig_dlsym := env.dl_sym_dlsym } else s

/-- The hook `dlopen` (dlhook.cpp, lines 52-71). -/
def dlopen (env : Env) (s : State) (file : Option String) (mode : Int) :
    Except Fault (Nat × State) :=
  let s1 := linkDlopen env s
  if !s1.orig_dlopen then .error Fault.nullCall
  else if env.isNative then .ok (env.real_dlopen file mode, s1)
  else
    let result := env.real_dlopen file mode
    match file with
    | some f =>
      if result != 0 then .ok (result, { s1 with libraries := setInsert f s1.libraries })
      else .ok (result, s1)
    | none => .ok (result, s1)

/-- The test of dlhook.cpp, lines 125-128: `libpath` is at least as long as `"libtas.so"` and
its last characters compare equal to it. -/
def endsWithLibtas (libpath : String) : Bool :=
  let libtasstr := "libtas.so"
  decide (libpath.length ≥ libtasstr.length) &&
    ((libpath.data.drop (libpath.length - libtasstr.length)).take libtasstr.length
      == libtasstr.data)

/-- The hook `dlsym` (dlhook.cpp, lines 73-137). -/
def dlsym (env : Env) (s : State) (handle : Nat) (name : Option String) :
    Except Fault (Nat × State) :=
  let s1 := linkDlsym env s
  if env.isNative then
    if s1.orig_dlsym then .ok ((env.real_dlsym handle name).1, s1) else .error Fault.nullCall
  else
    match name with
    | none => .error Fault.nullDeref
    | some nm =>
      if nm == "dlopen" then .ok (env.addr_dlopen, s1)
      else if nm == "dlsym" then .ok (env.addr_dlsym, s1)
      else if !s1.orig_dlsym then .error Fault.nullCall
      else
        let addr := (env.real_dlsym RTLD_DEFAULT name).1
        let error := (env.real_dlsym RTLD_DEFAULT name).2
        let overridden :=
          match error with
          | some _ => false
          | none =>
            match env.dladdr addr with
            | none => false
            | some info => endsWithLibtas info.dli_fname
        if overridden then .ok (addr, s1)
        else .ok ((env.real_dlsym handle name).1, s1)

end Dlhook

/-! ## Theorems -/

namespace Fileio

theorem ensurePosix_calls (env : Env) (s : State) (sym : Sym) :
    (ensurePosix env s sym).calls = s.calls := by
  unfold ensurePosix link_posixfileio; split <;> rfl

theorem ensurePosix_prevent (env : Env) (s : State) (sym : Sym) :
    (ensurePosix env s sym).prevent_savefiles = s.prevent_savefiles := by
  unfold ensurePosix link_posixfileio; split <;> rfl

theorem ensurePosix_savefiles (env : Env) (s : State) (sym : Sym) :
    (ensurePosix env s sym).posix_savefiles = s.posix_savefiles := by
  unfold ensurePosix link_posixfileio; split <;> rfl

theorem ensurePosix_orig_write (env : Env) (s : State) :
    (ensurePosix env s Sym.write).orig Sym.write = (s.orig Sym.write || env.resolve Sym.write) := by
  unfold ensurePosix
  by_cases h : s.orig Sym.write = true
  · simp [h]
  · simp [h, link_posixfileio, posixSyms, LINK_NAMESPACE]

theorem toSsize_of_lt (n : Nat) (h : n < 2 ^ 63) : toSsize n = (n : Int) := by
  have h64 : n % 2 ^ 64 = n := Nat.mod_eq_of_lt (by omega)
  unfold toSsize
  rw [h64, if_pos h]

/-- C1 fails as stated.  With `prevent_savefiles` enabled and descriptor 3 registered, `write`
of 5 bytes returns -1 when the real `write` cannot be resolved; with `prevent_savefiles`
disabled, `pwrite` on an empty slot returns 5 without any real call; and a suppressed `write`
of `2^64 - 1` bytes returns -1, the count converted to `ssize_t`. -/
theorem write_family_counterexample :
    registered ⟨true, fun _ => false, [(3, "save.dat")], [], false⟩ 3 = true ∧
    (∃ s1, write ⟨fun _ => false, fun _ _ => 0, fun _ _ => StatResult.fail ENOENT⟩
        ⟨true, fun _ => false, [(3, "save.dat")], [], false⟩
        3 0 5 = .ok (-1, s1) ∧ s1.calls = []) ∧
    (∃ s1, pwrite ⟨fun _ => true, fun _ _ => 7, fun _ _ => StatResult.fail ENOENT⟩
        ⟨false, fun _ => false, [], [], false⟩
        3 0 5 0 = .ok (5, s1) ∧ s1.calls = []) ∧
    (∃ s1, write ⟨fun _ => true, fun _ _ => 0, fun _ _ => StatResult.fail ENOENT⟩
        ⟨true, fun _ => true, [(3, "save.dat")], [], false⟩
        3 0 (2 ^ 64 - 1) = .ok (-1, s1)) := by
  refine ⟨by decide, ⟨_, rfl, rfl⟩, ⟨_, rfl, rfl⟩, ⟨_, rfl⟩⟩

/-- C1, amended.  Let `n` fit `ssize_t`.  For each of the hooks `write`, `pwrite` and
`pwrite64` whose real symbol is available (for `write`: cached or resolved by
`link_posixfileio`; for `pwrite` and `pwrite64`: already cached): if `prevent_savefiles` is
enabled and `fd` is registered in `posix_savefiles`, the hook returns exactly `n` and makes no
real call; otherwise it makes the one real call and returns its result. -/
theorem write_family_suppress_or_forward (env : Env) (s : State) (fd : Int) (buf n : Nat)
    (offset : Int) (hn : n < 2 ^ 63) :
    ((s.orig Sym.write || env.resolve Sym.write) = true →
      ((s.prevent_savefiles = true ∧ registered s fd = true) →
        write env s fd buf n = .ok ((n : Int), ensurePosix env s Sym.write) ∧
        (ensurePosix env s Sym.write).calls = s.calls) ∧
      (¬ (s.prevent_savefiles = true ∧ registered s fd = true) →
        write env s fd buf n =
          .ok (env.real s.calls (RealCall.write fd buf n),
            { ensurePosix env s Sym.write with
              calls := s.calls ++ [RealCall.write fd buf n] }))) ∧
    (s.orig Sym.pwrite = true →
      ((s.prevent_savefiles = true ∧ registered s fd = true) →
        pwrite env s fd buf n offset = .ok ((n : Int), s)) ∧
      (¬ (s.prevent_savefiles = true ∧ registered s fd = true) →
        pwrite env s fd buf n offset =
          .ok (env.real s.calls (RealCall.pwrite fd buf n offset),
            { s with calls := s.calls ++ [RealCall.pwrite fd buf n offset] }))) ∧
    (s.orig Sym.pwrite64 = true →
      ((s.prevent_savefiles = true ∧ registered s fd = true) →
        pwrite64 env s fd buf n offset = .ok ((n : Int), s)) ∧
      (¬ (s.prevent_savefiles = true ∧ registered s fd = true) →
        pwrite64 env s fd buf n offset =
          .ok (env.real s.calls (RealCall.pwrite64 fd buf n offset),
            { s with calls := s.calls ++ [RealCall.pwrite64 fd buf n offset] }))) := by
  have hc := ensurePosix_calls env s Sym.write
  have hpv := ensurePosix_prevent env s Sym.write
  have hsv := ensurePosix_savefiles env s Sym.write
  have hreg : registered (ensurePosix env s Sym.write) fd = registered s fd := by
    unfold registered; rw [hsv]
  have hoff : ¬ (s.prevent_savefiles = true ∧ registered s fd = true) →
      (s.prevent_savefiles && registered s fd) = false := by
    intro h
    cases h1 : s.prevent_savefiles <;> cases h2 : registered s fd <;> simp_all
  refine ⟨?_, ?_, ?_⟩
  · intro hw
    have ho := ensurePosix_orig_write env s
    rw [hw] at ho
    constructor
    · rintro ⟨h1, h2⟩
      exact ⟨by simp [write, ho, hpv, hreg, h1, h2, toSsize_of_lt n hn], hc⟩
    · intro h
      simp [write, ho, hpv, hreg, hoff h, callOrig, hc]
  · intro hp
    constructor
    · rintro ⟨h1, h2⟩
      simp [pwrite, hp, h1, h2, toSsize_of_lt n hn]
    · intro h
      simp [pwrite, hp, hoff h, callOrig]
  · intro hp64
    constructor
    · rintro ⟨h1, h2⟩
      simp [pwrite64, hp64, h1, h2, toSsize_of_lt n hn]
    · intro h
      simp [pwrite64, hp64, hoff h, callOrig]

/-- Witness of `write_family_suppress_or_forward`: descriptor 3 registered, virtualization
enabled, 5 bytes. -/
theorem write_family_suppress_or_forward_witness :
    write ⟨fun _ => true, fun _ _ => 0, fun _ _ => StatResult.fail ENOENT⟩
        ⟨true, fun _ => true, [(3, "save.dat")], [], false⟩ 3 0 5 =
      .ok (5, ensurePosix ⟨fun _ => true, fun _ _ => 0, fun _ _ => StatResult.fail ENOENT⟩
        ⟨true, fun _ => true, [(3, "save.dat")], [], false⟩ Sym.write) :=
  (((write_family_suppress_or_forward
    ⟨fun _ => true, fun _ _ => 0, fun _ _ => StatResult.fail ENOENT⟩
    ⟨true, fun _ => true, [(3, "save.dat")], [], false⟩ 3 0 5 0 (by decide)).1 rfl).1
      ⟨rfl, by decide⟩).1

end Fileio

/-! ### The C library function `strstr` -/

theorem strstrFrom_isSome (needle : List Char) (hay : List Char) (i : Nat) :
    (strstrFrom needle hay i).isSome = true ↔ needle <:+: hay := by
  induction hay generalizing i with
  | nil =>
    cases needle <;> simp [strstrFrom]
  | cons c cs ih =>
    unfold strstrFrom
    by_cases hp : needle.isPrefixOf (c :: cs) = true
    · rw [if_pos hp]
      have hpre : needle <+: c :: cs := List.isPrefixOf_iff_prefix.mp hp
      simpa using hpre.isInfix
    · rw [if_neg hp, ih (i + 1), List.infix_cons_iff]
      have hpre : ¬ needle <+: c :: cs := fun h => hp (List.isPrefixOf_iff_prefix.mpr h)
      constructor
      · intro h; exact Or.inr h
      · rintro (h | h)
        · exact absurd h hpre
        · exact h

theorem strstr_isSome (haystack needle : String) :
    (strstr haystack needle).isSome = true ↔ needle.data <:+: haystack.data :=
  strstrFrom_isSome needle.data haystack.data 0

theorem strstr_char_isSome (haystack : String) (c : Char) :
    (strstr haystack (String.singleton c)).isSome = true ↔ c ∈ haystack.data := by
  rw [strstr_isSome]
  have hs : (String.singleton c).data = [c] := rfl
  rw [hs]
  constructor
  · rintro ⟨u, v, h⟩
    rw [← h]; simp
  · intro h
    obtain ⟨u, v, h⟩ := List.append_of_mem h
    exact ⟨u, v, by rw [h]; simp⟩

namespace SaveFileList

/-! ### The classifiers -/

theorem any_isSameFile_of_mem (w : World) (reg : Registry) (file : Option String)
    (h : ∃ e ∈ reg, e.isSameFile w file = true) :
    reg.any (fun savefile => savefile.isSameFile w file) = true := by
  obtain ⟨e, he, hs⟩ := h
  exact List.any_eq_true.mpr ⟨e, he, hs⟩

theorem any_isSameFile_eq_false (w : World) (reg : Registry) (file : Option String)
    (h : ∀ e ∈ reg, e.isSameFile w file = false) :
    reg.any (fun savefile => savefile.isSameFile w file) = false := by
  rw [Bool.eq_false_iff]
  intro hany
  obtain ⟨e, he, hs⟩ := List.any_eq_true.mp hany
  rw [h e he] at hs
  exact Bool.false_ne_true hs

/-- C2.  If the registry holds an entity that `isSameFile(path)`, both two-argument
classifiers return true, whatever the open flags, the mode string and the value of
`shared_config.prevent_savefiles` (which is a field of the arbitrary world `w`). -/
theorem isSaveFile_of_tracked (w : World) (reg : Registry) (file : Option String)
    (oflag : Nat) (modes : String)
    (h : ∃ e ∈ reg, e.isSameFile w file = true) :
    isSaveFile_oflag w reg file oflag = true ∧ isSaveFile_modes w reg file modes = true := by
  have hany := any_isSameFile_of_mem w reg file h
  constructor
  · unfold isSaveFile_oflag; rw [if_pos hany]
  · unfold isSaveFile_modes; rw [if_pos hany]

/-- Witness of `isSaveFile_of_tracked`: the tracked file `/a`, opened read-only with
`O_CLOEXEC`, with virtualization disabled. -/
theorem isSaveFile_of_tracked_witness :
    isSaveFile_oflag ⟨false, id, fun _ => StatResult.fail 13, fun _ => 0, fun e _ => e,
        fun e _ => e, fun e => (0, e), fun e => (0, e)⟩ [⟨"/a", 3, 0, false⟩] (some "/a")
        (O_RDONLY ||| O_CLOEXEC) = true ∧
    isSaveFile_modes ⟨false, id, fun _ => StatResult.fail 13, fun _ => 0, fun e _ => e,
        fun e _ => e, fun e => (0, e), fun e => (0, e)⟩ [⟨"/a", 3, 0, false⟩] (some "/a")
        "r" = true :=
  isSaveFile_of_tracked _ _ _ _ _ ⟨⟨"/a", 3, 0, false⟩, by simp, by decide⟩

/-- C3 fails as stated.  The tracked file `/a` is classified as a save file when opened with
`O_RDONLY` and when opened with mode `"r"`. -/
theorem readonly_counterexample :
    (O_RDONLY &&& 0x3 == O_RDONLY) = true ∧
    ('w' ∉ "r".data ∧ 'a' ∉ "r".data ∧ '+' ∉ "r".data) ∧
    isSaveFile_oflag ⟨true, id, fun _ => StatResult.fail 2, fun _ => 0, fun e _ => e,
        fun e _ => e, fun e => (0, e), fun e => (0, e)⟩ [⟨"/a", 3, 0, false⟩] (some "/a")
        O_RDONLY = true ∧
    isSaveFile_modes ⟨true, id, fun _ => StatResult.fail 2, fun _ => 0, fun e _ => e,
        fun e _ => e, fun e => (0, e), fun e => (0, e)⟩ [⟨"/a", 3, 0, false⟩] (some "/a")
        "r" = true := by
  refine ⟨by decide, by decide, by decide, by decide⟩

/-- C3, amended.  For every path that no entity of the registry `isSameFile`, every world
(configuration and file system): `isSaveFile(path, oflag)` returns false whenever
`(oflag & 0x3) == O_RDONLY`, and `isSaveFile(path, modes)` returns false whenever `modes`
contains none of `w`, `a`, `+`. -/
theorem readonly_untracked_not_savefile (w : World) (reg : Registry) (file : Option String)
    (oflag : Nat) (modes : String)
    (huntracked : ∀ e ∈ reg, e.isSameFile w file = false) :
    (oflag &&& 0x3 = O_RDONLY → isSaveFile_oflag w reg file oflag = false) ∧
    (('w' ∉ modes.data ∧ 'a' ∉ modes.data ∧ '+' ∉ modes.data) →
      isSaveFile_modes w reg file modes = false) := by
  have hany := any_isSameFile_eq_false w reg file huntracked
  constructor
  · intro h
    unfold isSaveFile_oflag
    simp [hany, h]
  · rintro ⟨hw, ha, hp⟩
    have h1 : (strstr modes "w").isSome = false := by
      rw [Bool.eq_false_iff]; exact fun h => hw ((strstr_char_isSome modes 'w').mp h)
    have h2 : (strstr modes "a").isSome = false := by
      rw [Bool.eq_false_iff]; exact fun h => ha ((strstr_char_isSome modes 'a').mp h)
    have h3 : (strstr modes "+").isSome = false := by
      rw [Bool.eq_false_iff]; exact fun h => hp ((strstr_char_isSome modes '+').mp h)
    unfold isSaveFile_modes
    simp [hany, h1, h2, h3]

/-- Witness of `readonly_untracked_not_savefile`: the untracked, non-existent path `/b`. -/
theorem readonly_untracked_not_savefile_witness :
    isSaveFile_oflag ⟨true, id, fun _ => StatResult.fail 2, fun _ => 0, fun e _ => e,
        fun e _ => e, fun e => (0, e), fun e => (0, e)⟩ [⟨"/a", 3, 0, false⟩] (some "/b")
        O_RDONLY = false ∧
    isSaveFile_modes ⟨true, id, fun _ => StatResult.fail 2, fun _ => 0, fun e _ => e,
        fun e _ => e, fun e => (0, e), fun e => (0, e)⟩ [⟨"/a", 3, 0, false⟩] (some "/b")
        "rb" = false :=
  ⟨(readonly_untracked_not_savefile _ _ _ O_RDONLY "rb" (by decide)).1 (by decide),
    (readonly_untracked_not_savefile ⟨true, id, fun _ => StatResult.fail 2, fun _ => 0,
        fun e _ => e, fun e _ => e, fun e => (0, e), fun e => (0, e)⟩ [⟨"/a", 3, 0, false⟩]
        (some "/b") O_RDONLY "rb" (by decide)).2 (by decide)⟩

theorem isSaveFile_true_iff (w : World) (file : Option String) :
    isSaveFile w file = true ↔
      w.prevent_savefiles = true ∧ ∃ f, file = some f ∧
        (w.stat f = StatResult.fail ENOENT ∨
          ∃ filestat, w.stat f = StatResult.ok filestat ∧ S_ISREG filestat.st_mode = true ∧
            filestat.typeIsMq = false ∧ filestat.typeIsSem = false ∧
            filestat.typeIsShm = false ∧ ¬ "/dev/shm".data <:+: f.data) := by
  unfold isSaveFile
  cases hp : w.prevent_savefiles
  · simp
  · cases file with
    | none => simp
    | some f =>
      have hshm := strstr_isSome f "/dev/shm"
      cases hst : w.stat f with
      | fail errno =>
        by_cases he : errno = ENOENT
        · subst he; simp [hst]
        · simp [hst, he]
      | ok filestat =>
        cases h1 : S_ISREG filestat.st_mode <;> cases h2 : filestat.typeIsMq <;>
          cases h3 : filestat.typeIsSem <;> cases h4 : filestat.typeIsShm <;>
          cases h5 : (strstr f "/dev/shm").isSome <;> simp_all

/-- C4.  The probe `isSaveFile(file)` returns true if and only if
`shared_config.prevent_savefiles` is enabled, `file` is non-null, and either `stat` fails with
`ENOENT`, or `stat` succeeds on a regular file that is no message queue, semaphore or shared
memory object and whose path does not contain `/dev/shm`.  In particular it returns false
when `stat` fails with any other errno. -/
theorem isSaveFile_probe_iff (w : World) (file : Option String) :
    (isSaveFile w file = true ↔
      w.prevent_savefiles = true ∧ ∃ f, file = some f ∧
        (w.stat f = StatResult.fail ENOENT ∨
          ∃ filestat, w.stat f = StatResult.ok filestat ∧ S_ISREG filestat.st_mode = true ∧
            filestat.typeIsMq = false ∧ filestat.typeIsSem = false ∧
            filestat.typeIsShm = false ∧ ¬ "/dev/shm".data <:+: f.data)) ∧
    (∀ f errno, file = some f → w.stat f = StatResult.fail errno → errno ≠ ENOENT →
      isSaveFile w file = false) := by
  refine ⟨isSaveFile_true_iff w file, ?_⟩
  intro f errno hf hst hne
  subst hf
  unfold isSaveFile
  cases hp : w.prevent_savefiles
  · simp
  · simp [hst, hne]

/-- Witness of `isSaveFile_probe_iff`: `stat` fails with `EACCES` (13) on `/root/save`. -/
theorem isSaveFile_probe_iff_witness :
    isSaveFile ⟨true, id, fun _ => StatResult.fail 13, fun _ => 0, fun e _ => e,
      fun e _ => e, fun e => (0, e), fun e => (0, e)⟩ (some "/root/save") = false :=
  (isSaveFile_probe_iff ⟨true, id, fun _ => StatResult.fail 13, fun _ => 0, fun e _ => e,
    fun e _ => e, fun e => (0, e), fun e => (0, e)⟩ (some "/root/save")).2
      "/root/save" 13 rfl rfl (by decide)

/-- C5 fails as stated.  With virtualization enabled, the non-existent path `/dev/shm/x`
(`stat` fails with `ENOENT`) is classified as a save file by the three classifiers; and a
tracked path under `/dev/shm` is classified as a save file by the two-argument classifiers
even though it exists as a regular file. -/
theorem dev_shm_counterexample :
    "/dev/shm".data <:+: "/dev/shm/x".data ∧
    isSaveFile ⟨true, id, fun _ => StatResult.fail ENOENT, fun _ => 0, fun e _ => e,
        fun e _ => e, fun e => (0, e), fun e => (0, e)⟩ (some "/dev/shm/x") = true ∧
    isSaveFile_oflag ⟨true, id, fun _ => StatResult.fail ENOENT, fun _ => 0, fun e _ => e,
        fun e _ => e, fun e => (0, e), fun e => (0, e)⟩ [] (some "/dev/shm/x") 1 = true ∧
    isSaveFile_modes ⟨true, id, fun _ => StatResult.fail ENOENT, fun _ => 0, fun e _ => e,
        fun e _ => e, fun e => (0, e), fun e => (0, e)⟩ [] (some "/dev/shm/x") "w" = true ∧
    isSaveFile_oflag ⟨true, id, fun _ => StatResult.ok ⟨0x81A4, false, false, false⟩,
        fun _ => 0, fun e _ => e, fun e _ => e, fun e => (0, e), fun e => (0, e)⟩
        [⟨"/dev/shm/x", 3, 0, false⟩] (some "/dev/shm/x") 1 = true ∧
    isSaveFile_modes ⟨true, id, fun _ => StatResult.ok ⟨0x81A4, false, false, false⟩,
        fun _ => 0, fun e _ => e, fun e _ => e, fun e => (0, e), fun e => (0, e)⟩
        [⟨"/dev/shm/x", 3, 0, false⟩] (some "/dev/shm/x") "w" = true := by
  refine ⟨⟨[], "/x".data, by decide⟩, by decide, by decide, by decide, by decide, by decide⟩

/-- C5, amended.  For every path containing `/dev/shm`, unless virtualization is enabled and
`stat` fails on the path with `ENOENT`: `isSaveFile(path)` returns false; and when moreover no
entity of the registry `isSameFile(path)`, `isSaveFile(path, oflag)` and
`isSaveFile(path, modes)` return false for every open flag and every mode. -/
theorem dev_shm_existing_not_savefile (w : World) (reg : Registry) (f : String)
    (hshm : "/dev/shm".data <:+: f.data)
    (hstat : ¬ (w.prevent_savefiles = true ∧ w.stat f = StatResult.fail ENOENT)) :
    isSaveFile w (some f) = false ∧
    ((∀ e ∈ reg, e.isSameFile w (some f) = false) →
      ∀ (oflag : Nat) (modes : String),
        isSaveFile_oflag w reg (some f) oflag = false ∧
        isSaveFile_modes w reg (some f) modes = false) := by
  have hprobe : isSaveFile w (some f) = false := by
    rw [Bool.eq_false_iff]
    intro h
    obtain ⟨hpv, f1, hf, hcase⟩ := (isSaveFile_true_iff w (some f)).mp h
    cases hf
    rcases hcase with h1 | ⟨_, _, _, _, _, _, h6⟩
    · exact hstat ⟨hpv, h1⟩
    · exact h6 hshm
  refine ⟨hprobe, ?_⟩
  intro huntracked oflag modes
  have hany := any_isSameFile_eq_false w reg (some f) huntracked
  constructor
  · unfold isSaveFile_oflag
    simp [hany, hprobe]
  · unfold isSaveFile_modes
    simp [hany, hprobe]

/-- Witness of `dev_shm_existing_not_savefile`: the existing regular file `/dev/shm/x`,
untracked, opened for writing. -/
theorem dev_shm_existing_not_savefile_witness :
    isSaveFile_oflag ⟨true, id, fun _ => StatResult.ok ⟨0x81A4, false, false, false⟩,
        fun _ => 0, fun e _ => e, fun e _ => e, fun e => (0, e), fun e => (0, e)⟩
        [] (some "/dev/shm/x") 1 = false :=
  ((dev_shm_existing_not_savefile ⟨true, id,
      fun _ => StatResult.ok ⟨0x81A4, false, false, false⟩,
      fun _ => 0, fun e _ => e, fun e _ => e, fun e => (0, e), fun e => (0, e)⟩
      [] "/dev/shm/x" ⟨[], "/x".data, by decide⟩ (by simp)).2 (by simp) 1 "w").1

/-! ### The registry operations -/

theorem isSameFile_of_canon (w : World) (e : SaveFile) (file : Option String) (c : String)
    (hc : w.canonicalizeFile file = some c) :
    e.isSameFile w file = (e.filename == c) := by
  unfold SaveFile.isSameFile; rw [hc]

theorem isSameFile_of_canon_none (w : World) (e : SaveFile) (file : Option String)
    (hc : w.canonicalizeFile file = none) :
    e.isSameFile w file = false := by
  unfold SaveFile.isSameFile; rw [hc]

theorem new_filename (w : World) (file : Option String) (c : String)
    (hc : w.canonicalizeFile file = some c) :
    (SaveFile.new w file).filename = c := by
  unfold SaveFile.new; rw [hc]; rfl

theorem forFirst_eq_none {R : Type} (p : SaveFile → Bool) (f : SaveFile → R × SaveFile)
    (reg : Registry) :
    forFirst p f reg = none ↔ ∀ e ∈ reg, p e = false := by
  induction reg with
  | nil => simp [forFirst]
  | cons e es ih =>
    unfold forFirst
    cases hp : p e
    · simp [hp, ih]
    · simp [hp]

theorem forFirst_filenames {R : Type} (p : SaveFile → Bool) (f : SaveFile → R × SaveFile)
    (hf : ∀ e, (f e).2.filename = e.filename) (reg : Registry) (r : R × Registry)
    (h : forFirst p f reg = some r) :
    r.2.map SaveFile.filename = reg.map SaveFile.filename := by
  induction reg generalizing r with
  | nil => simp [forFirst] at h
  | cons e es ih =>
    unfold forFirst at h
    cases hp : p e
    · rw [hp] at h
      cases hrec : forFirst p f es with
      | none => rw [hrec] at h; simp at h
      | some r1 =>
        rw [hrec] at h
        simp only [Bool.false_eq_true, if_false, Option.map_some', Option.some.injEq] at h
        subst h
        simp [ih r1 hrec]
    · rw [hp] at h
      simp only [if_true, Option.some.injEq] at h
      subst h
      simp [hf e]

theorem forFirst_retarget_names (p : SaveFile → Bool) (newfilestr : String) (reg : Registry)
    (r : Int × Registry)
    (h : forFirst p (fun e => ((0 : Int), { e with filename := newfilestr })) reg = some r) :
    ∀ x ∈ r.2.map SaveFile.filename, x = newfilestr ∨ x ∈ reg.map SaveFile.filename := by
  induction reg generalizing r with
  | nil => simp [forFirst] at h
  | cons e es ih =>
    unfold forFirst at h
    cases hp : p e
    · rw [hp] at h
      cases hrec : forFirst p (fun e => ((0 : Int), { e with filename := newfilestr })) es with
      | none => rw [hrec] at h; simp at h
      | some r1 =>
        rw [hrec] at h
        simp only [Bool.false_eq_true, if_false, Option.map_some', Option.some.injEq] at h
        subst h
        intro x hx
        simp only [List.map_cons, List.mem_cons] at hx ⊢
        rcases hx with hx | hx
        · exact Or.inr (Or.inl hx)
        · rcases ih r1 hrec x hx with h1 | h1
          · exact Or.inl h1
          · exact Or.inr (Or.inr h1)
    · rw [hp] at h
      simp only [if_true, Option.some.injEq] at h
      subst h
      intro x hx
      simp only [List.map_cons, List.mem_cons] at hx ⊢
      rcases hx with hx | hx
      · exact Or.inl hx
      · exact Or.inr (Or.inr hx)

theorem forFirst_retarget_unique (p : SaveFile → Bool) (newfilestr : String) (reg : Registry)
    (r : Int × Registry)
    (h : forFirst p (fun e => ((0 : Int), { e with filename := newfilestr })) reg = some r)
    (hnew : newfilestr ∉ reg.map SaveFile.filename) (hu : Unique reg) :
    Unique r.2 := by
  induction reg generalizing r with
  | nil => simp [forFirst] at h
  | cons e es ih =>
    unfold Unique at hu ⊢
    rw [List.map_cons, List.nodup_cons] at hu
    rw [List.map_cons, List.mem_cons, not_or] at hnew
    unfold forFirst at h
    cases hp : p e
    · rw [hp] at h
      cases hrec : forFirst p (fun e => ((0 : Int), { e with filename := newfilestr })) es with
      | none => rw [hrec] at h; simp at h
      | some r1 =>
        rw [hrec] at h
        simp only [Bool.false_eq_true, if_false, Option.map_some', Option.some.injEq] at h
        subst h
        rw [List.map_cons, List.nodup_cons]
        refine ⟨?_, ih r1 hrec hnew.2 hu.2⟩
        intro hmem
        rcases forFirst_retarget_names p newfilestr es r1 hrec _ hmem with h1 | h1
        · exact hnew.1 h1.symm
        · exact hu.1 h1
    · rw [hp] at h
      simp only [if_true, Option.some.injEq] at h
      subst h
      rw [List.map_cons, List.nodup_cons]
      exact ⟨hnew.2, hu.2⟩

theorem unique_append (reg : Registry) (x : SaveFile) (hu : Unique reg)
    (hx : ∀ e ∈ reg, e.filename ≠ x.filename) : Unique (reg ++ [x]) := by
  unfold Unique at hu ⊢
  rw [List.map_append, List.nodup_append]
  refine ⟨hu, by simp, ?_⟩
  intro a ha hb
  simp only [List.map_cons, List.map_nil, List.mem_singleton] at hb
  obtain ⟨e, he, hfe⟩ := List.mem_map.mp ha
  exact hx e he (hfe.trans hb)

theorem unique_filter (reg : Registry) (q : SaveFile → Bool) (hu : Unique reg) :
    Unique (reg.filter q) := by
  unfold Unique at hu ⊢
  exact hu.sublist ((List.filter_sublist reg).map SaveFile.filename)

theorem untracked_ne (w : World) (reg : Registry) (file : Option String) (c : String)
    (hc : w.canonicalizeFile file = some c)
    (h : ∀ e ∈ reg, e.isSameFile w file = false) :
    ∀ e ∈ reg, e.filename ≠ c := by
  intro e he heq
  have := h e he
  rw [isSameFile_of_canon w e file c hc, heq] at this
  simp at this

theorem open_modes_filename (w : World) (e : SaveFile) (modes : String) :
    (e.open_modes w modes).2.filename = e.filename := rfl

theorem open_oflag_filename (w : World) (e : SaveFile) (oflag : Nat) :
    (e.open_oflag w oflag).2.filename = e.filename := rfl

theorem closeFile_filename (w : World) (e : SaveFile) :
    (e.closeFile w).2.filename = e.filename := rfl

theorem remove_filename (w : World) (e : SaveFile) :
    (e.remove w).2.filename = e.filename := rfl

theorem unique_of_names_eq (reg reg1 : Registry)
    (h : reg1.map SaveFile.filename = reg.map SaveFile.filename) (hu : Unique reg) :
    Unique reg1 := by
  unfold Unique at hu ⊢; rw [h]; exact hu

/-- Every registry operation preserves the uniqueness invariant, provided the path opened or
removed canonicalizes. -/
theorem step_unique (w : World) (reg : Registry) (op : Op)
    (hpaths : ∀ p ∈ op.keyPaths, (w.canonicalizeFile p).isSome = true)
    (hu : Unique reg) : Unique (step w reg op) := by
  cases op with
  | openModes file modes =>
    obtain ⟨c, hc⟩ := Option.isSome_iff_exists.mp (hpaths file (by simp [Op.keyPaths]))
    simp only [step, openSaveFile_modes]
    cases hff : forFirst (fun e => e.isSameFile w file) (fun e => e.open_modes w modes) reg with
    | some r =>
      exact unique_of_names_eq reg r.2
        (forFirst_filenames _ _ (open_modes_filename w · modes) reg r hff) hu
    | none =>
      refine unique_append reg _ hu ?_
      rw [open_modes_filename, new_filename w file c hc]
      exact untracked_ne w reg file c hc ((forFirst_eq_none _ _ reg).mp hff)
  | openOflag file oflag =>
    obtain ⟨c, hc⟩ := Option.isSome_iff_exists.mp (hpaths file (by simp [Op.keyPaths]))
    simp only [step, openSaveFile_oflag]
    cases hff : forFirst (fun e => e.isSameFile w file) (fun e => e.open_oflag w oflag) reg with
    | some r =>
      exact unique_of_names_eq reg r.2
        (forFirst_filenames _ _ (open_oflag_filename w · oflag) reg r hff) hu
    | none =>
      refine unique_append reg _ hu ?_
      rw [open_oflag_filename, new_filename w file c hc]
      exact untracked_ne w reg file c hc ((forFirst_eq_none _ _ reg).mp hff)
  | closeFd fd =>
    simp only [step, closeSaveFile_fd]
    cases hff : forFirst (fun e => e.fd == fd) (fun e => e.closeFile w) reg with
    | some r =>
      exact unique_of_names_eq reg r.2
        (forFirst_filenames _ _ (closeFile_filename w) reg r hff) hu
    | none => exact hu
  | closeStream stream =>
    simp only [step, closeSaveFile_stream]
    cases hff : forFirst (fun e => e.stream == stream) (fun e => e.closeFile w) reg with
    | some r =>
      exact unique_of_names_eq reg r.2
        (forFirst_filenames _ _ (closeFile_filename w) reg r hff) hu
    | none => exact hu
  | remove file =>
    obtain ⟨c, hc⟩ := Option.isSome_iff_exists.mp (hpaths file (by simp [Op.keyPaths]))
    simp only [step, removeSaveFile]
    cases hff : forFirst (fun e => e.isSameFile w file) (fun e => e.remove w) reg with
    | some r =>
      exact unique_of_names_eq reg r.2
        (forFirst_filenames _ _ (remove_filename w) reg r hff) hu
    | none =>
      cases hpv : w.prevent_savefiles
      · simpa using hu
      · simp only [if_true]
        refine unique_append reg _ hu ?_
        rw [remove_filename, new_filename w file c hc]
        exact untracked_ne w reg file c hc ((forFirst_eq_none _ _ reg).mp hff)
  | rename oldfile newfile =>
    simp only [step, renameSaveFile]
    cases hc : w.canonicalizeFile newfile with
    | none => exact hu
    | some newfilestr =>
      have hu1 : Unique (reg.filter (fun s => !s.isSameFile w newfile)) :=
        unique_filter reg _ hu
      have hnew : ∀ e ∈ reg.filter (fun s => !s.isSameFile w newfile),
          e.filename ≠ newfilestr := by
        intro e he heq
        have h2 := (List.mem_filter.mp he).2
        rw [isSameFile_of_canon w e newfile newfilestr hc, heq] at h2
        simp at h2
      simp only []
      cases hff : forFirst (fun e => e.isSameFile w oldfile)
          (fun e => ((0 : Int), { e with filename := newfilestr }))
          (reg.filter (fun s => !s.isSameFile w newfile)) with
      | some r =>
        refine forFirst_retarget_unique _ newfilestr _ r hff ?_ hu1
        intro hmem
        obtain ⟨e, he, hfe⟩ := List.mem_map.mp hmem
        exact hnew e he hfe
      | none =>
        cases hpv : w.prevent_savefiles
        · simpa using hu1
        · simp only [if_true]
          exact unique_append _ _ hu1 hnew

theorem run_unique (calls : List (World × Op)) (reg : Registry)
    (hpaths : ∀ c ∈ calls, ∀ p ∈ c.2.keyPaths, (c.1.canonicalizeFile p).isSome = true)
    (hu : Unique reg) : Unique (run reg calls) := by
  induction calls generalizing reg with
  | nil => exact hu
  | cons c cs ih =>
    unfold run
    exact ih _ (fun c1 hc1 => hpaths c1 (List.mem_cons_of_mem _ hc1))
      (step_unique c.1 reg c.2 (hpaths c (List.mem_cons_self _ _)) hu)

theorem unique_filter_length (reg : Registry) (c : String) (hu : Unique reg) :
    (reg.filter (fun e => e.filename == c)).length ≤ 1 := by
  induction reg with
  | nil => simp
  | cons e es ih =>
    unfold Unique at hu
    rw [List.map_cons, List.nodup_cons] at hu
    by_cases hec : e.filename = c
    · have hnone : es.filter (fun e => e.filename == c) = [] := by
        rw [List.filter_eq_nil_iff]
        intro a ha haeq
        have : a.filename = c := by simpa using haeq
        exact hu.1 (List.mem_map.mpr ⟨a, ha, this.trans hec.symm⟩)
      simp [List.filter_cons, hec, hnone]
    · have : (e.filename == c) = false := by simpa using hec
      rw [List.filter_cons, this]
      exact ih hu.2

/-- C6.  Starting from the empty registry, after any sequence of `openSaveFile`,
`closeSaveFile`, `removeSaveFile` and `renameSaveFile` calls in which every path opened or
removed has a canonical form, no two entities of the registry have the same filename; and two
spellings that canonicalize identically select the same entities, of which there is at most
one. -/
theorem registry_unique (calls : List (World × Op))
    (hpaths : ∀ c ∈ calls, ∀ p ∈ c.2.keyPaths, (c.1.canonicalizeFile p).isSome = true) :
    ((run [] calls).map SaveFile.filename).Nodup ∧
    ∀ (w : World) (p q : Option String), w.canonicalizeFile p = w.canonicalizeFile q →
      (run [] calls).filter (fun e => e.isSameFile w p) =
        (run [] calls).filter (fun e => e.isSameFile w q) ∧
      ((run [] calls).filter (fun e => e.isSameFile w p)).length ≤ 1 := by
  have hu : Unique (run [] calls) := run_unique calls [] hpaths (by simp [Unique])
  refine ⟨hu, ?_⟩
  intro w p q hpq
  have hsame : (fun e : SaveFile => e.isSameFile w p) = (fun e => e.isSameFile w q) := by
    funext e; unfold SaveFile.isSameFile; rw [hpq]
  refine ⟨by rw [hsame], ?_⟩
  cases hc : w.canonicalizeFile p with
  | none =>
    have : (fun e : SaveFile => e.isSameFile w p) = (fun _ => false) := by
      funext e; exact isSameFile_of_canon_none w e p hc
    rw [this]; simp
  | some c =>
    have : (fun e : SaveFile => e.isSameFile w p) = (fun e => e.filename == c) := by
      funext e; exact isSameFile_of_canon w e p c hc
    rw [this]
    exact unique_filter_length _ c hu

/-- Witness of `registry_unique`: `/a` is opened under two spellings, renamed to `/b`, and
`/c` is removed. -/
theorem registry_unique_witness :
    ((run [] [
      ((⟨true, fun p => if p = some "./a" then some "/a" else p, fun _ => StatResult.fail 2,
        fun _ => 0, fun e _ => e, fun e _ => e, fun e => (0, e), fun e => (0, e)⟩ : World),
        Op.openModes (some "./a") "w"),
      ((⟨true, fun p => if p = some "./a" then some "/a" else p, fun _ => StatResult.fail 2,
        fun _ => 0, fun e _ => e, fun e _ => e, fun e => (0, e), fun e => (0, e)⟩ : World),
        Op.openOflag (some "/a") 1),
      ((⟨true, fun p => if p = some "./a" then some "/a" else p, fun _ => StatResult.fail 2,
        fun _ => 0, fun e _ => e, fun e _ => e, fun e => (0, e), fun e => (0, e)⟩ : World),
        Op.rename (some "./a") (some "/b")),
      ((⟨true, fun p => if p = some "./a" then some "/a" else p, fun _ => StatResult.fail 2,
        fun _ => 0, fun e _ => e, fun e _ => e, fun e => (0, e), fun e => (0, e)⟩ : World),
        Op.remove (some "/c"))]).map SaveFile.filename).Nodup :=
  (registry_unique _ (by decide)).1

/-! ### Renaming -/

theorem map_retarget_of_absent (oldname newfilestr : String) (reg : Registry)
    (h : ∀ e ∈ reg, e.filename ≠ oldname) :
    reg.map (retarget oldname newfilestr) = reg := by
  induction reg with
  | nil => rfl
  | cons e es ih =>
    have he : e.filename ≠ oldname := h e (List.mem_cons_self _ _)
    rw [List.map_cons, ih (fun x hx => h x (List.mem_cons_of_mem _ hx))]
    simp [retarget, he]

theorem forFirst_retarget_eq_map (oldname newfilestr : String) (reg : Registry)
    (hu : Unique reg) (htracked : ∃ e ∈ reg, e.filename = oldname) :
    forFirst (fun e => e.filename == oldname)
        (fun e => ((0 : Int), { e with filename := newfilestr })) reg =
      some (0, reg.map (retarget oldname newfilestr)) := by
  induction reg with
  | nil => simp at htracked
  | cons e es ih =>
    unfold Unique at hu
    rw [List.map_cons, List.nodup_cons] at hu
    unfold forFirst
    by_cases he : e.filename = oldname
    · have habsent : ∀ x ∈ es, x.filename ≠ oldname := by
        intro x hx hxo
        exact hu.1 (List.mem_map.mpr ⟨x, hx, hxo.trans he.symm⟩)
      have hb : (e.filename == oldname) = true := by simpa using he
      rw [if_pos hb, List.map_cons, map_retarget_of_absent oldname newfilestr es habsent]
      simp [retarget, he]
    · have hb : ¬ (e.filename == oldname) = true := by simpa using he
      have htr : ∃ x ∈ es, x.filename = oldname := by
        obtain ⟨x, hx, hxo⟩ := htracked
        rcases List.mem_cons.mp hx with h1 | h1
        · exact absurd (h1 ▸ hxo) he
        · exact ⟨x, h1, hxo⟩
      rw [if_neg hb, ih hu.2 htr]
      simp [retarget, he]

theorem unique_filter_eq_singleton (reg : Registry) (c : String) (e : SaveFile)
    (hu : Unique reg) (he : e ∈ reg) (hc : e.filename = c) :
    reg.filter (fun x => x.filename == c) = [e] := by
  induction reg with
  | nil => simp at he
  | cons x xs ih =>
    unfold Unique at hu
    rw [List.map_cons, List.nodup_cons] at hu
    by_cases hx : x.filename = c
    · have hnone : xs.filter (fun y => y.filename == c) = [] := by
        rw [List.filter_eq_nil_iff]
        intro a ha haeq
        have : a.filename = c := by simpa using haeq
        exact hu.1 (List.mem_map.mpr ⟨a, ha, this.trans hx.symm⟩)
      have hex : e = x := by
        rcases List.mem_cons.mp he with h1 | h1
        · exact h1
        · exact absurd (List.mem_map.mpr ⟨e, h1, hc.trans hx.symm⟩) hu.1
      simp [List.filter_cons, hx, hnone, hex]
    · have hb : (x.filename == c) = false := by simpa using hx
      have hexs : e ∈ xs := by
        rcases List.mem_cons.mp he with h1 | h1
        · exact absurd (h1 ▸ hc) hx
        · exact h1
      rw [List.filter_cons, hb]
      exact ih hu.2 hexs

/-- The registry after `renameSaveFile(a, b)` when `a` is tracked, both paths canonicalize
and the registry satisfies the uniqueness invariant. -/
theorem renameSaveFile_tracked (w : World) (reg : Registry) (a b : Option String)
    (ca cb : String)
    (ha : w.canonicalizeFile a = some ca) (hb : w.canonicalizeFile b = some cb)
    (hne : ca ≠ cb) (htracked : ∃ e ∈ reg, e.filename = ca) (hu : Unique reg) :
    renameSaveFile w reg a b =
      (0, (reg.filter (fun e => e.filename != cb)).map (retarget ca cb)) := by
  have hfb : (fun s : SaveFile => !s.isSameFile w b) = (fun e => e.filename != cb) := by
    funext e; rw [isSameFile_of_canon w e b cb hb]; rfl
  have hfa : (fun e : SaveFile => e.isSameFile w a) = (fun e => e.filename == ca) := by
    funext e; exact isSameFile_of_canon w e a ca ha
  have htr1 : ∃ e ∈ reg.filter (fun e => e.filename != cb), e.filename = ca := by
    obtain ⟨e, he, hea⟩ := htracked
    refine ⟨e, List.mem_filter.mpr ⟨he, ?_⟩, hea⟩
    simp [hea, hne]
  unfold renameSaveFile
  simp only [hb, hfb, hfa]
  rw [forFirst_retarget_eq_map ca cb _ (unique_filter reg _ hu) htr1]

theorem retarget_filename_eq_new (ca cb : String) (x : SaveFile)
    (hx : x.filename ≠ cb) :
    ((retarget ca cb x).filename == cb) = (x.filename == ca) := by
  unfold retarget
  by_cases h : x.filename = ca
  · simp [h]
  · simp [h, hx]

/-- C7.  For every registry that satisfies the uniqueness invariant and paths `a`, `b` with
distinct canonical forms `ca`, `cb`, where `a` is tracked: `renameSaveFile(a, b)` returns 0;
afterwards exactly one entity has filename `cb`, and it is the former entity of `a` with its
`fd`, `stream` and `removed` unchanged; no entity has filename `ca`; the entities keyed by
neither name are unchanged and in the same order; so whatever entity was keyed by `cb` before
is gone.  The last conjunct gives the registry in full. -/
theorem rename_transfers_identity (w : World) (reg : Registry) (a b : Option String)
    (ca cb : String)
    (ha : w.canonicalizeFile a = some ca) (hb : w.canonicalizeFile b = some cb)
    (hne : ca ≠ cb) (htracked : ∃ e ∈ reg, e.filename = ca)
    (hu : (reg.map SaveFile.filename).Nodup) :
    (renameSaveFile w reg a b).1 = 0 ∧
    (∃ e ∈ reg, e.filename = ca ∧
      (renameSaveFile w reg a b).2.filter (fun x => x.filename == cb) =
        [{ e with filename := cb }]) ∧
    (∀ x ∈ (renameSaveFile w reg a b).2, x.filename ≠ ca) ∧
    (renameSaveFile w reg a b).2.filter (fun x => x.filename != cb) =
      reg.filter (fun x => x.filename != ca && x.filename != cb) ∧
    (renameSaveFile w reg a b).2 =
      (reg.filter (fun e => e.filename != cb)).map (retarget ca cb) := by
  have hR := renameSaveFile_tracked w reg a b ca cb ha hb hne htracked hu
  have hu1 : Unique (reg.filter (fun e => e.filename != cb)) := unique_filter reg _ hu
  have hmem1 : ∀ x ∈ reg.filter (fun e => e.filename != cb), x.filename ≠ cb := by
    intro x hx
    simpa using (List.mem_filter.mp hx).2
  rw [hR]
  refine ⟨rfl, ?_, ?_, ?_, rfl⟩
  · obtain ⟨e, he, hea⟩ := htracked
    refine ⟨e, he, hea, ?_⟩
    have he1 : e ∈ reg.filter (fun e => e.filename != cb) :=
      List.mem_filter.mpr ⟨he, by simp [hea, hne]⟩
    have hcongr : (reg.filter (fun e => e.filename != cb)).filter
          ((fun x => x.filename == cb) ∘ retarget ca cb) =
        (reg.filter (fun e => e.filename != cb)).filter (fun x => x.filename == ca) :=
      List.filter_congr (fun x hx => retarget_filename_eq_new ca cb x (hmem1 x hx))
    simp only []
    rw [List.filter_map, hcongr, unique_filter_eq_singleton _ ca e hu1 he1 hea]
    simp [retarget, hea]
  · intro x hx
    obtain ⟨y, _, hyx⟩ := List.mem_map.mp hx
    rw [← hyx]
    unfold retarget
    by_cases h : y.filename = ca
    · rw [if_pos h]; exact fun h2 => hne h2.symm
    · rw [if_neg h]; exact h
  · have hcongr : (reg.filter (fun e => e.filename != cb)).filter
          ((fun x => x.filename != cb) ∘ retarget ca cb) =
        (reg.filter (fun e => e.filename != cb)).filter (fun x => x.filename != ca) := by
      refine List.filter_congr (fun x hx => ?_)
      have := retarget_filename_eq_new ca cb x (hmem1 x hx)
      simp only [Function.comp, bne, this]
    simp only []
    rw [List.filter_map, hcongr, map_retarget_of_absent, List.filter_filter]
    intro e he
    simpa using (List.mem_filter.mp he).2

/-- Witness of `rename_transfers_identity`: `/a`, `/b` and `/c` are tracked and `/a` is
renamed to `/b`. -/
theorem rename_transfers_identity_witness :
    (renameSaveFile ⟨true, id, fun _ => StatResult.fail 2, fun _ => 0, fun e _ => e,
        fun e _ => e, fun e => (0, e), fun e => (0, e)⟩
        [⟨"/a", 1, 0, false⟩, ⟨"/b", 2, 0, true⟩, ⟨"/c", 3, 0, false⟩]
        (some "/a") (some "/b")).2 =
      ([⟨"/a", 1, 0, false⟩, ⟨"/b", 2, 0, true⟩, ⟨"/c", 3, 0, false⟩].filter
        (fun e => e.filename != "/b")).map (retarget "/a" "/b") :=
  (rename_transfers_identity ⟨true, id, fun _ => StatResult.fail 2, fun _ => 0, fun e _ => e,
      fun e _ => e, fun e => (0, e), fun e => (0, e)⟩
      [⟨"/a", 1, 0, false⟩, ⟨"/b", 2, 0, true⟩, ⟨"/c", 3, 0, false⟩]
      (some "/a") (some "/b") "/a" "/b" rfl rfl (by decide)
      ⟨⟨"/a", 1, 0, false⟩, by simp, rfl⟩
      (by decide)).2.2.2.2

/-! ### Removing -/

/-- C8.  For every path `p` with canonical form `c` that the registry does not track: if
`shared_config.prevent_savefiles` is enabled, `removeSaveFile(p)` returns the value of the
real `access(p, W_OK)` and appends exactly one entity, with filename `c` and marked removed;
in every later world that canonicalizes `p` to `c`, the lookup of `p` finds that entity,
`isSaveFileRemoved(p)` returns true and `isSaveFile(p, flags)` and `isSaveFile(p, modes)`
return true.  If `prevent_savefiles` is disabled, the registry is unchanged and the call
returns 1. -/
theorem remove_untracked (w : World) (reg : Registry) (p : Option String) (c : String)
    (hc : w.canonicalizeFile p = some c)
    (huntracked : ∀ e ∈ reg, e.isSameFile w p = false) :
    (w.prevent_savefiles = true →
      (removeSaveFile w reg p).1 = w.access_W_OK p ∧
      ∃ e, (removeSaveFile w reg p).2 = reg ++ [e] ∧ e.filename = c ∧ e.removed = true ∧
        ∀ w1 : World, w1.canonicalizeFile p = some c →
          (removeSaveFile w reg p).2.find? (fun x => x.isSameFile w1 p) = some e ∧
          isSaveFileRemoved w1 (removeSaveFile w reg p).2 p = true ∧
          ∀ (oflag : Nat) (modes : String),
            isSaveFile_oflag w1 (removeSaveFile w reg p).2 p oflag = true ∧
            isSaveFile_modes w1 (removeSaveFile w reg p).2 p modes = true) ∧
    (w.prevent_savefiles = false → removeSaveFile w reg p = (1, reg)) := by
  have hnone : forFirst (fun e => e.isSameFile w p) (fun e => e.remove w) reg = none :=
    (forFirst_eq_none _ _ reg).mpr huntracked
  have hnames : ∀ e ∈ reg, e.filename ≠ c := untracked_ne w reg p c hc huntracked
  constructor
  · intro hpv
    have hrm : removeSaveFile w reg p =
        (w.access_W_OK p, reg ++ [((SaveFile.new w p).remove w).2]) := by
      unfold removeSaveFile; rw [hnone]; simp [hpv]
    rw [hrm]
    refine ⟨rfl, ((SaveFile.new w p).remove w).2, rfl, ?_, rfl, ?_⟩
    · rw [remove_filename, new_filename w p c hc]
    · intro w1 hc1
      have hfn : (((SaveFile.new w p).remove w).2).filename = c := by
        rw [remove_filename, new_filename w p c hc]
      have hself : (((SaveFile.new w p).remove w).2).isSameFile w1 p = true := by
        rw [isSameFile_of_canon w1 _ p c hc1, hfn]; simp
      have hfind : (reg ++ [((SaveFile.new w p).remove w).2]).find?
          (fun x => x.isSameFile w1 p) = some ((SaveFile.new w p).remove w).2 := by
        have hreg : reg.find? (fun x => x.isSameFile w1 p) = none := by
          rw [List.find?_eq_none]
          intro x hx hsame
          rw [isSameFile_of_canon w1 x p c hc1] at hsame
          exact hnames x hx (by simpa using hsame)
        rw [List.find?_append, hreg]
        simp [List.find?, hself]
      have hany : (reg ++ [((SaveFile.new w p).remove w).2]).any
          (fun savefile => savefile.isSameFile w1 p) = true :=
        any_isSameFile_of_mem w1 _ p ⟨_, by simp, hself⟩
      refine ⟨hfind, ?_, ?_⟩
      · simp only []
        unfold isSaveFileRemoved
        rw [hfind]
        rfl
      · intro oflag modes
        constructor
        · simp only []; unfold isSaveFile_oflag; rw [if_pos hany]
        · simp only []; unfold isSaveFile_modes; rw [if_pos hany]
  · intro hpv
    unfold removeSaveFile; rw [hnone]; simp [hpv]

/-- Witness of `remove_untracked`: `/b` is removed while only `/a` is tracked. -/
theorem remove_untracked_witness :
    (removeSaveFile ⟨true, id, fun _ => StatResult.fail 2, fun _ => -1, fun e _ => e,
        fun e _ => e, fun e => (0, e), fun e => (0, e)⟩ [⟨"/a", 3, 0, false⟩] (some "/b")).1 =
      -1 :=
  ((remove_untracked ⟨true, id, fun _ => StatResult.fail 2, fun _ => -1, fun e _ => e,
      fun e _ => e, fun e => (0, e), fun e => (0, e)⟩ [⟨"/a", 3, 0, false⟩] (some "/b") "/b"
      rfl (by decide)).1 rfl).1

end SaveFileList

/-! ### Hooks and empty slots of `namespace orig` -/

namespace Fileio

theorem callOrig_null (env : Env) (s : State) (sym : Sym) (c : RealCall)
    (h : s.orig sym = false) : callOrig env s sym c = .error Fault.nullCall := by
  unfold callOrig; simp [h]

end Fileio

/-- C9: the code departs from the claim.  No real symbol can be resolved and every slot of
`namespace orig` is empty.  The hooks `fwrite`, `fopen`, `write` and `close` return their
neutral value, but `fputc`, `putc`, `fprintf` and `vfprintf` call through the empty slot, and
so do `dlopen` and `dlsym` when `_dl_sym` yields null. -/
theorem hooks_on_unresolved_symbols :
    (∃ s1, Fileio.fwrite ⟨fun _ => false, fun _ _ => 0, fun _ _ => StatResult.fail ENOENT⟩
        ⟨true, fun _ => false, [], [], false⟩
      1 1 8 1 = .ok (0, s1)) ∧
    (∃ s1, Fileio.fopen ⟨fun _ => false, fun _ _ => 0, fun _ _ => StatResult.fail ENOENT⟩
        ⟨true, fun _ => false, [], [], false⟩
      (some "save.dat") "w" = .ok (0, s1)) ∧
    (∃ s1, Fileio.write ⟨fun _ => false, fun _ _ => 0, fun _ _ => StatResult.fail ENOENT⟩
        ⟨true, fun _ => false, [], [], false⟩
      3 1 8 = .ok (-1, s1)) ∧
    (∃ s1, Fileio.close ⟨fun _ => false, fun _ _ => 0, fun _ _ => StatResult.fail ENOENT⟩
        ⟨true, fun _ => false, [], [], false⟩
      3 = .ok (-1, s1)) ∧
    Fileio.fputc ⟨fun _ => false, fun _ _ => 0, fun _ _ => StatResult.fail ENOENT⟩
        ⟨true, fun _ => false, [], [], false⟩ 97 1 =
      .error Fault.nullCall ∧
    Fileio.putc ⟨fun _ => false, fun _ _ => 0, fun _ _ => StatResult.fail ENOENT⟩
        ⟨true, fun _ => false, [], [], false⟩ 97 1 =
      .error Fault.nullCall ∧
    Fileio.fprintf ⟨fun _ => false, fun _ _ => 0, fun _ _ => StatResult.fail ENOENT⟩
        ⟨true, fun _ => false, [], [], false⟩ 1 "%d" [7] =
      .error Fault.nullCall ∧
    Fileio.vfprintf ⟨fun _ => false, fun _ _ => 0, fun _ _ => StatResult.fail ENOENT⟩
        ⟨true, fun _ => false, [], [], false⟩ 1 "%d" [7] =
      .error Fault.nullCall ∧
    Dlhook.dlopen ⟨false, false, false, fun _ _ => 1, fun _ _ => (1, none), fun _ => none,
      100, 200⟩ ⟨false, false, []⟩ (some "./libhooklib2.so") 1 = .error Fault.nullCall ∧
    Dlhook.dlsym ⟨false, false, false, fun _ _ => 1, fun _ _ => (1, none), fun _ => none,
      100, 200⟩ ⟨false, false, []⟩ 1 (some "libtasTestFunc2") = .error Fault.nullCall := by
  refine ⟨⟨_, rfl⟩, ⟨_, rfl⟩, ⟨_, rfl⟩, ⟨_, rfl⟩, rfl, rfl, rfl, rfl, rfl, ?_⟩
  simp [Dlhook.dlsym, Dlhook.linkDlsym]

namespace Dlhook

/-! ### The hook `dlsym` -/

theorem take_drop_eq_iff_suffix (t l : List Char) :
    (l.length ≥ t.length ∧ (l.drop (l.length - t.length)).take t.length = t) ↔ t <:+ l := by
  constructor
  · rintro ⟨hlen, h⟩
    refine ⟨l.take (l.length - t.length), ?_⟩
    have hd : (l.drop (l.length - t.length)).length = t.length := by
      rw [List.length_drop]; omega
    have h2 : (l.drop (l.length - t.length)).take t.length = l.drop (l.length - t.length) :=
      List.take_of_length_le (le_of_eq hd)
    rw [h2] at h
    have h3 := List.take_append_drop (l.length - t.length) l
    rw [h] at h3
    exact h3
  · rintro ⟨u, rfl⟩
    refine ⟨by simp, ?_⟩
    have : (u ++ t).length - t.length = u.length := by simp
    rw [this, List.drop_left, List.take_length]

theorem endsWithLibtas_iff (libpath : String) :
    endsWithLibtas libpath = true ↔ "libtas.so".data <:+ libpath.data := by
  rw [← take_drop_eq_iff_suffix]
  show (decide (libpath.data.length ≥ "libtas.so".data.length) &&
    ((libpath.data.drop (libpath.data.length - "libtas.so".data.length)).take
      "libtas.so".data.length == "libtas.so".data)) = true ↔ _
  rw [Bool.and_eq_true, decide_eq_true_eq, beq_iff_eq]

/-- C10.  Outside native mode, for every handle and non-null name: `dlsym` returns the
address of the hook `dlopen` for the name `dlopen` and the address of the hook `dlsym` for the
name `dlsym`.  For any other name, the real `dlsym` being resolved: it returns the address the
real `dlsym` finds in `RTLD_DEFAULT` when that lookup leaves no error and `dladdr` succeeds on
it with a module path that ends in `libtas.so`, whatever the handle holds; in every other
case it returns the result of the real `dlsym(handle, name)`. -/
theorem dlsym_result (env : Env) (s : State) (handle : Nat) (name : String)
    (hnative : env.isNative = false) :
    (name = "dlopen" → ∃ s1, dlsym env s handle (some name) = .ok (env.addr_dlopen, s1)) ∧
    (name = "dlsym" → ∃ s1, dlsym env s handle (some name) = .ok (env.addr_dlsym, s1)) ∧
    (name ≠ "dlopen" → name ≠ "dlsym" → (s.orig_dlsym || env.dl_sym_dlsym) = true →
      ((env.real_dlsym RTLD_DEFAULT (some name)).2 = none ∧
        ∃ info, env.dladdr (env.real_dlsym RTLD_DEFAULT (some name)).1 = some info ∧
          "libtas.so".data <:+ info.dli_fname.data) →
      ∃ s1, dlsym env s handle (some name) =
        .ok ((env.real_dlsym RTLD_DEFAULT (some name)).1, s1)) ∧
    (name ≠ "dlopen" → name ≠ "dlsym" → (s.orig_dlsym || env.dl_sym_dlsym) = true →
      ¬ ((env.real_dlsym RTLD_DEFAULT (some name)).2 = none ∧
        ∃ info, env.dladdr (env.real_dlsym RTLD_DEFAULT (some name)).1 = some info ∧
          "libtas.so".data <:+ info.dli_fname.data) →
      ∃ s1, dlsym env s handle (some name) =
        .ok ((env.real_dlsym handle (some name)).1, s1)) := by
  have horig : ∀ (_ : (s.orig_dlsym || env.dl_sym_dlsym) = true),
      (linkDlsym env s).orig_dlsym = true := by
    intro h
    unfold linkDlsym
    cases h1 : s.orig_dlsym
    · simpa [h1] using h
    · simp [h1]
  refine ⟨?_, ?_, ?_, ?_⟩
  · intro hn
    exact ⟨linkDlsym env s, by simp [dlsym, hnative, hn]⟩
  · intro hn
    exact ⟨linkDlsym env s, by simp [dlsym, hnative, hn]⟩
  · rintro h1 h2 hreal ⟨herr, info, haddr, hsuf⟩
    have hend : endsWithLibtas info.dli_fname = true := (endsWithLibtas_iff _).mpr hsuf
    exact ⟨linkDlsym env s,
      by simp [dlsym, hnative, h1, h2, horig hreal, herr, haddr, hend]⟩
  · intro h1 h2 hreal hnot
    refine ⟨linkDlsym env s, ?_⟩
    cases herr : (env.real_dlsym RTLD_DEFAULT (some name)).2 with
    | some e => simp [dlsym, hnative, h1, h2, horig hreal, herr]
    | none =>
      cases haddr : env.dladdr (env.real_dlsym RTLD_DEFAULT (some name)).1 with
      | none => simp [dlsym, hnative, h1, h2, horig hreal, herr, haddr]
      | some info =>
        have hend : endsWithLibtas info.dli_fname = false := by
          rw [Bool.eq_false_iff]
          intro h
          exact hnot ⟨herr, info, haddr, (endsWithLibtas_iff _).mp h⟩
        simp [dlsym, hnative, h1, h2, horig hreal, herr, haddr, hend]

/-- Witness of `dlsym_result`: the hook test looks `libtasTestFunc2` up through the handle of
`libhooklib2.so` (address 600 there) and gets the definition at address 500, which `dladdr`
places in `/usr/lib/libtas.so`. -/
theorem dlsym_result_witness :
    ∃ s1, dlsym ⟨false, true, true, fun _ _ => 1,
        fun h _ => if h = RTLD_DEFAULT then (500, none) else (600, none),
        fun a => if a = 500 then some ⟨"/usr/lib/libtas.so"⟩ else some ⟨"./libhooklib2.so"⟩,
        100, 200⟩ ⟨true, false, ["./libhooklib2.so"]⟩ 1 (some "libtasTestFunc2") =
      .ok (500, s1) :=
  (dlsym_result ⟨false, true, true, fun _ _ => 1,
      fun h _ => if h = RTLD_DEFAULT then (500, none) else (600, none),
      fun a => if a = 500 then some ⟨"/usr/lib/libtas.so"⟩ else some ⟨"./libhooklib2.so"⟩,
      100, 200⟩ ⟨true, false, ["./libhooklib2.so"]⟩ 1 "libtasTestFunc2" rfl).2.2.1
    (by decide) (by decide) rfl
    ⟨rfl, ⟨"/usr/lib/libtas.so"⟩, rfl, "/usr/lib/".data, rfl⟩

/-! ### The hook `dlopen` -/

theorem mem_setInsert (x y : String) (l : List String) :
    y ∈ setInsert x l ↔ y = x ∨ y ∈ l := by
  induction l with
  | nil => simp [setInsert]
  | cons z zs ih =>
    unfold setInsert
    by_cases h1 : x < z
    · rw [if_pos h1]; simp
    · rw [if_neg h1]
      by_cases h2 : x = z
      · rw [if_pos h2]
        subst h2
        simp
      · rw [if_neg h2, List.mem_cons, ih, List.mem_cons]
        tauto

theorem sorted_setInsert (x : String) (l : List String) (h : l.Sorted (· < ·)) :
    (setInsert x l).Sorted (· < ·) := by
  induction l with
  | nil => simp [setInsert]
  | cons z zs ih =>
    rw [List.sorted_cons] at h
    unfold setInsert
    by_cases h1 : x < z
    · rw [if_pos h1, List.sorted_cons]
      refine ⟨?_, List.sorted_cons.mpr h⟩
      intro b hb
      rcases List.mem_cons.mp hb with hb | hb
      · rw [hb]; exact h1
      · exact lt_trans h1 (h.1 b hb)
    · rw [if_neg h1]
      by_cases h2 : x = z
      · rw [if_pos h2]; exact List.sorted_cons.mpr h
      · rw [if_neg h2, List.sorted_cons]
        refine ⟨?_, ih h.2⟩
        intro b hb
        rcases (mem_setInsert x b zs).mp hb with hb | hb
        · rw [hb]
          exact lt_of_le_of_ne (not_lt.mp h1) (fun e => h2 e.symm)
        · exact h.1 b hb

theorem linkDlopen_orig (env : Env) (s : State)
    (hreal : (s.orig_dlopen || env.dl_sym_dlopen) = true) :
    (linkDlopen env s).orig_dlopen = true := by
  unfold linkDlopen
  cases h1 : s.orig_dlopen
  · simpa [h1] using hreal
  · simp [h1]

theorem linkDlopen_libraries (env : Env) (s : State) :
    (linkDlopen env s).libraries = s.libraries := by
  unfold linkDlopen; split <;> rfl

/-- C11.  For every path and mode, the real `dlopen` being resolved, the hook `dlopen` returns
the result of the real `dlopen`.  The set of loaded libraries afterwards is the old set with
the path inserted when native mode is inactive, the real `dlopen` returned a non-null handle
and the path is non-null; in every other case it is the old set.  No element is ever lost,
and the set stays strictly ordered (free of duplicates). -/
theorem dlopen_result (env : Env) (s : State) (file : Option String) (mode : Int)
    (hreal : (s.orig_dlopen || env.dl_sym_dlopen) = true) :
    ∃ s1, dlopen env s file mode = .ok (env.real_dlopen file mode, s1) ∧
      (∀ f, env.isNative = false → env.real_dlopen file mode ≠ 0 → file = some f →
        s1.libraries = setInsert f s.libraries ∧
        ∀ x, x ∈ s1.libraries ↔ x = f ∨ x ∈ s.libraries) ∧
      ((env.isNative = true ∨ env.real_dlopen file mode = 0 ∨ file = none) →
        s1.libraries = s.libraries) ∧
      (∀ x ∈ s.libraries, x ∈ s1.libraries) ∧
      (s.libraries.Sorted (· < ·) → s1.libraries.Sorted (· < ·)) := by
  have ho := linkDlopen_orig env s hreal
  have hl := linkDlopen_libraries env s
  cases hnat : env.isNative
  · cases file with
    | none =>
      refine ⟨linkDlopen env s, by simp [dlopen, ho, hnat], ?_, fun _ => hl, ?_, ?_⟩
      · intro f _ _ hf; cases hf
      · intro x hx; rw [hl]; exact hx
      · intro h; rw [hl]; exact h
    | some f =>
      by_cases hres : env.real_dlopen (some f) mode = 0
      · refine ⟨linkDlopen env s, by simp [dlopen, ho, hnat, hres], ?_, fun _ => hl, ?_, ?_⟩
        · intro f1 _ hne _; exact absurd hres hne
        · intro x hx; rw [hl]; exact hx
        · intro h; rw [hl]; exact h
      · refine ⟨{ linkDlopen env s with libraries := setInsert f (linkDlopen env s).libraries },
          by simp [dlopen, ho, hnat, hres], ?_, ?_, ?_, ?_⟩
        · intro f1 _ _ hf
          cases hf
          refine ⟨by rw [hl], ?_⟩
          intro x
          show x ∈ setInsert f (linkDlopen env s).libraries ↔ _
          rw [hl]; exact mem_setInsert f x s.libraries
        · rintro (h | h | h)
          · cases h
          · exact absurd h hres
          · cases h
        · intro x hx
          show x ∈ setInsert f (linkDlopen env s).libraries
          rw [hl]; exact (mem_setInsert f x s.libraries).mpr (Or.inr hx)
        · intro h
          show (setInsert f (linkDlopen env s).libraries).Sorted (· < ·)
          rw [hl]; exact sorted_setInsert f s.libraries h
  · refine ⟨linkDlopen env s, by simp [dlopen, ho, hnat], ?_, fun _ => hl, ?_, ?_⟩
    · intro f h; cases h
    · intro x hx; rw [hl]; exact hx
    · intro h; rw [hl]; exact h

/-- Witness of `dlopen_result`: the hook test loads `./libhooklib2.so` while `libSDL2.so` is
already recorded. -/
theorem dlopen_result_witness :
    ∃ s1, dlopen ⟨false, true, true, fun _ _ => 1, fun _ _ => (0, none), fun _ => none,
        100, 200⟩ ⟨false, false, ["libSDL2.so"]⟩ (some "./libhooklib2.so") 1 = .ok (1, s1) ∧
      s1.libraries = ["./libhooklib2.so", "libSDL2.so"] := by
  obtain ⟨s1, h1, h2, _⟩ := dlopen_result ⟨false, true, true, fun _ _ => 1,
    fun _ _ => (0, none), fun _ => none, 100, 200⟩ ⟨false, false, ["libSDL2.so"]⟩
    (some "./libhooklib2.so") 1 rfl
  have hlt : "./libhooklib2.so" < "libSDL2.so" := by
    rw [String.lt_iff_toList_lt]; decide
  refine ⟨s1, h1, (h2 "./libhooklib2.so" rfl (by decide) rfl).1.trans ?_⟩
  show setInsert "./libhooklib2.so" ["libSDL2.so"] = _
  unfold setInsert
  rw [if_pos hlt]

end Dlhook

/-! ### The `open` family and the descriptor map -/

namespace Fileio

theorem ensurePosix_orig (env : Env) (s : State) (sym : Sym) (hmem : sym ∈ posixSyms) :
    (ensurePosix env s sym).orig sym = (s.orig sym || env.resolve sym) := by
  unfold ensurePosix
  by_cases h : s.orig sym = true
  · simp [h]
  · simp only [posixSyms, List.mem_cons, List.mem_singleton, List.not_mem_nil, or_false] at hmem
    rcases hmem with rfl | rfl | rfl | rfl | rfl | rfl | rfl | rfl | rfl | rfl <;>
      simp [h, link_posixfileio, posixSyms, LINK_NAMESPACE]

theorem afterReal_posix_savefiles (env : Env) (s : State) (sym : Sym) (c : RealCall) :
    (afterReal env s sym c).posix_savefiles = s.posix_savefiles :=
  ensurePosix_savefiles env s sym

theorem afterReal_prevent (env : Env) (s : State) (sym : Sym) (c : RealCall) :
    (afterReal env s sym c).prevent_savefiles = s.prevent_savefiles :=
  ensurePosix_prevent env s sym

theorem afterReal_inited (env : Env) (s : State) (sym : Sym) (c : RealCall) :
    (afterReal env s sym c).inited = s.inited := by
  unfold afterReal ensurePosix link_posixfileio; split <;> rfl

theorem callOrig_ensurePosix (env : Env) (s : State) (sym : Sym) (c : RealCall)
    (hmem : sym ∈ posixSyms) (havail : (s.orig sym || env.resolve sym) = true) :
    callOrig env (ensurePosix env s sym) sym c =
      .ok (env.real s.calls c, afterReal env s sym c) := by
  have ho := ensurePosix_orig env s sym hmem
  rw [havail] at ho
  unfold callOrig afterReal
  rw [if_pos ho, ensurePosix_calls]

theorem isSaveFile_true_some (env : Env) (s : State) (file : Option String) (oflag : Nat)
    (h : (isSaveFile env s file oflag).1 = true) : ∃ f, file = some f := by
  cases file with
  | none =>
    unfold isSaveFile at h
    cases hp : s.prevent_savefiles <;> simp [hp] at h
  | some f => exact ⟨f, rfl⟩

theorem isSaveFile_posix_savefiles (env : Env) (s : State) (file : Option String)
    (oflag : Nat) :
    (isSaveFile env s file oflag).2.posix_savefiles =
      if (s.prevent_savefiles && file.isSome && !s.inited) = true then []
      else s.posix_savefiles := by
  unfold isSaveFile
  cases hp : s.prevent_savefiles
  · simp
  · cases file with
    | none => simp
    | some f =>
      cases hi : s.inited <;>
        (simp only [Bool.not_true, Bool.not_false, Bool.false_eq_true, if_false, if_true,
          Option.isSome_some, Bool.and_self, Bool.and_false]
         split
         · rfl
         · split <;> split <;> rfl)

theorem registerIfSaveFile_fst (env : Env) (s : State) (file : Option String) (oflag : Nat)
    (fd : Int) : (registerIfSaveFile env s file oflag fd).1 = fd := by
  unfold registerIfSaveFile
  split <;> rfl

theorem registerIfSaveFile_classified (env : Env) (s : State) (f : String) (oflag : Nat)
    (fd : Int) (h : (isSaveFile env s (some f) oflag).1 = true) :
    (registerIfSaveFile env s (some f) oflag fd).2.posix_savefiles =
      mapAssign (isSaveFile env s (some f) oflag).2.posix_savefiles fd f := by
  unfold registerIfSaveFile
  cases hk : isSaveFile env s (some f) oflag with
  | mk b s1 =>
    rw [hk] at h
    simp only at h
    subst h
    rfl

theorem registerIfSaveFile_unclassified (env : Env) (s : State) (file : Option String)
    (oflag : Nat) (fd : Int) (h : (isSaveFile env s file oflag).1 = false) :
    (registerIfSaveFile env s file oflag fd).2 = (isSaveFile env s file oflag).2 := by
  unfold registerIfSaveFile
  cases hk : isSaveFile env s file oflag with
  | mk b s1 =>
    rw [hk] at h
    simp only at h
    subst h
    cases file <;> rfl

theorem lookup_mapAssign_self (m : List (Int × String)) (fd : Int) (f : String) :
    (mapAssign m fd f).lookup fd = some f := by
  simp [mapAssign, List.lookup]

theorem registered_isSaveFile_of_fresh (env : Env) (s : State) (file : Option String)
    (oflag : Nat) (d : Int) (h : registered s d = false) :
    registered (isSaveFile env s file oflag).2 d = false := by
  unfold registered at h ⊢
  rw [isSaveFile_posix_savefiles]
  split
  · rfl
  · exact h

/-- The tail `if (isSaveFile(file, oflag)) posix_savefiles[fd] = file; return fd;` meets
`RegistersIffClassified`. -/
theorem registerIfSaveFile_spec (env : Env) (s s2 : State) (file : Option String)
    (oflag : Nat) (d : Int) (hmap : s2.posix_savefiles = s.posix_savefiles) :
    RegistersIffClassified env s s2 file oflag d
      (.ok (registerIfSaveFile env s2 file oflag d)) := by
  refine ⟨(registerIfSaveFile env s2 file oflag d).2, ?_, ?_, ?_⟩
  · exact congrArg Except.ok (Prod.ext (registerIfSaveFile_fst env s2 file oflag d) rfl)
  · intro hfresh
    have hfresh2 : registered s2 d = false := by
      unfold registered at hfresh ⊢; rw [hmap]; exact hfresh
    cases hc : (isSaveFile env s2 file oflag).1
    · rw [registerIfSaveFile_unclassified env s2 file oflag d hc,
        registered_isSaveFile_of_fresh env s2 file oflag d hfresh2]
    · obtain ⟨f, rfl⟩ := isSaveFile_true_some env s2 file oflag hc
      have := registerIfSaveFile_classified env s2 f oflag d hc
      unfold registered
      rw [this, lookup_mapAssign_self]
      simp
  · intro hc
    obtain ⟨f, rfl⟩ := isSaveFile_true_some env s2 file oflag hc
    refine ⟨f, rfl, ?_⟩
    rw [registerIfSaveFile_classified env s2 f oflag d hc, lookup_mapAssign_self]

theorem open__eq (env : Env) (s : State) (file : Option String) (oflag mode : Nat)
    (havail : (s.orig Sym.open_ || env.resolve Sym.open_) = true) :
    open_ env s file oflag mode =
      .ok (registerIfSaveFile env
        (afterReal env s Sym.open_ (RealCall.open_ file oflag (modeArg oflag mode))) file oflag
        (env.real s.calls (RealCall.open_ file oflag (modeArg oflag mode)))) := by
  have ho := ensurePosix_orig env s Sym.open_ (by simp [posixSyms])
  rw [havail] at ho
  unfold open_
  simp only [ho, Bool.not_true, Bool.false_eq_true, if_false]
  rw [callOrig_ensurePosix env s Sym.open_ _ (by simp [posixSyms]) havail]

theorem open64_eq (env : Env) (s : State) (file : Option String) (oflag mode : Nat)
    (havail : (s.orig Sym.open64 || env.resolve Sym.open64) = true) :
    open64 env s file oflag mode =
      .ok (registerIfSaveFile env
        (afterReal env s Sym.open64 (RealCall.open64 file oflag (modeArg oflag mode))) file oflag
        (env.real s.calls (RealCall.open64 file oflag (modeArg oflag mode)))) := by
  have ho := ensurePosix_orig env s Sym.open64 (by simp [posixSyms])
  rw [havail] at ho
  unfold open64
  simp only [ho, Bool.not_true, Bool.false_eq_true, if_false]
  rw [callOrig_ensurePosix env s Sym.open64 _ (by simp [posixSyms]) havail]

theorem openat_eq (env : Env) (s : State) (fd : Int) (file : Option String) (oflag mode : Nat)
    (havail : (s.orig Sym.openat || env.resolve Sym.openat) = true) :
    openat env s fd file oflag mode =
      .ok (registerIfSaveFile env
        (afterReal env s Sym.openat (RealCall.openat fd file oflag (modeArg oflag mode)))
        file oflag (env.real s.calls (RealCall.openat fd file oflag (modeArg oflag mode)))) := by
  have ho := ensurePosix_orig env s Sym.openat (by simp [posixSyms])
  rw [havail] at ho
  unfold openat
  simp only [ho, Bool.not_true, Bool.false_eq_true, if_false]
  rw [callOrig_ensurePosix env s Sym.openat _ (by simp [posixSyms]) havail]

theorem openat64_eq (env : Env) (s : State) (fd : Int) (file : Option String)
    (oflag mode : Nat)
    (havail : (s.orig Sym.openat64 || env.resolve Sym.openat64) = true) :
    openat64 env s fd file oflag mode =
      .ok (registerIfSaveFile env
        (afterReal env s Sym.openat64 (RealCall.openat64 fd file oflag (modeArg oflag mode)))
        file oflag
        (env.real s.calls (RealCall.openat64 fd file oflag (modeArg oflag mode)))) := by
  have ho := ensurePosix_orig env s Sym.openat64 (by simp [posixSyms])
  rw [havail] at ho
  unfold openat64
  simp only [ho, Bool.not_true, Bool.false_eq_true, if_false]
  rw [callOrig_ensurePosix env s Sym.openat64 _ (by simp [posixSyms]) havail]

theorem creat_eq (env : Env) (s : State) (file : Option String) (mode : Nat)
    (havail : (s.orig Sym.creat || env.resolve Sym.creat) = true) :
    creat env s file mode =
      .ok (registerCreated (afterReal env s Sym.creat (RealCall.creat file mode)) file
        (env.real s.calls (RealCall.creat file mode))) := by
  have ho := ensurePosix_orig env s Sym.creat (by simp [posixSyms])
  rw [havail] at ho
  unfold creat
  simp only [ho, Bool.not_true, Bool.false_eq_true, if_false]
  rw [callOrig_ensurePosix env s Sym.creat _ (by simp [posixSyms]) havail]

theorem creat64_eq (env : Env) (s : State) (file : Option String) (mode : Nat)
    (havail : (s.orig Sym.creat64 || env.resolve Sym.creat64) = true) :
    creat64 env s file mode =
      .ok (registerCreated (afterReal env s Sym.creat64 (RealCall.creat64 file mode)) file
        (env.real s.calls (RealCall.creat64 file mode))) := by
  have ho := ensurePosix_orig env s Sym.creat64 (by simp [posixSyms])
  rw [havail] at ho
  unfold creat64
  simp only [ho, Bool.not_true, Bool.false_eq_true, if_false]
  rw [callOrig_ensurePosix env s Sym.creat64 _ (by simp [posixSyms]) havail]

/-- C12 fails as stated.  With virtualization enabled, descriptor 3 is a stale key of the map
when the real `open` of `/etc/passwd`, read-only, returns 3: the target is not classified as a
save file, yet 3 is registered after the call (mapped to `old.sav`).  With virtualization
disabled, `creat` of `log.txt` returns 3 and registers it, although `isSaveFile` with the
flags of `creat` (`O_CREAT|O_WRONLY|O_TRUNC`) does not classify the target. -/
theorem open_family_counterexample :
    (∃ s1, open_ ⟨fun _ => true, fun _ _ => 3, fun _ _ => StatResult.ok ⟨0x81A4, false, false,
          false⟩⟩ ⟨true, fun _ => true, [(3, "old.sav")], [], true⟩ (some "/etc/passwd")
          O_RDONLY 0 = .ok (3, s1) ∧
        registered s1 3 = true ∧ s1.posix_savefiles.lookup 3 = some "old.sav" ∧
        (isSaveFile ⟨fun _ => true, fun _ _ => 3, fun _ _ => StatResult.ok ⟨0x81A4, false,
          false, false⟩⟩ (afterReal ⟨fun _ => true, fun _ _ => 3, fun _ _ => StatResult.ok
          ⟨0x81A4, false, false, false⟩⟩ ⟨true, fun _ => true, [(3, "old.sav")], [], true⟩
          Sym.open_ (RealCall.open_ (some "/etc/passwd") O_RDONLY none)) (some "/etc/passwd")
          O_RDONLY).1 = false) ∧
    (∃ s1, creat ⟨fun _ => true, fun _ _ => 3, fun _ _ => StatResult.ok ⟨0x81A4, false, false,
          false⟩⟩ ⟨false, fun _ => true, [], [], true⟩ (some "log.txt") 420 =
          .ok (3, s1) ∧
        registered s1 3 = true ∧
        (isSaveFile ⟨fun _ => true, fun _ _ => 3, fun _ _ => StatResult.ok ⟨0x81A4, false,
          false, false⟩⟩ (afterReal ⟨fun _ => true, fun _ _ => 3, fun _ _ => StatResult.ok
          ⟨0x81A4, false, false, false⟩⟩ ⟨false, fun _ => true, [], [], true⟩
          Sym.creat (RealCall.creat (some "log.txt") 420)) (some "log.txt") 0x241).1 = false) := by
  refine ⟨⟨_, rfl, by decide, by decide, by decide⟩, ⟨_, rfl, by decide, by decide⟩⟩

/-- C12, amended.  For each of the hooks `open`, `open64`, `openat` and `openat64` whose real
symbol is available, called with path `file` and flags `oflag`: the hook returns the
descriptor `d` the real call returns; if `d` was not a key of `posix_savefiles` before the
call, then after the call `d` is registered if and only if `isSaveFile(file, oflag)`,
evaluated after the real call, classifies the target as a save file; and whenever it does, `d`
is mapped to `file`. -/
theorem open_family_registers (env : Env) (s : State) (file : Option String)
    (oflag mode : Nat) (dirfd : Int) :
    ((s.orig Sym.open_ || env.resolve Sym.open_) = true →
      RegistersIffClassified env s
        (afterReal env s Sym.open_ (RealCall.open_ file oflag (modeArg oflag mode)))
        file oflag (env.real s.calls (RealCall.open_ file oflag (modeArg oflag mode)))
        (open_ env s file oflag mode)) ∧
    ((s.orig Sym.open64 || env.resolve Sym.open64) = true →
      RegistersIffClassified env s
        (afterReal env s Sym.open64 (RealCall.open64 file oflag (modeArg oflag mode)))
        file oflag (env.real s.calls (RealCall.open64 file oflag (modeArg oflag mode)))
        (open64 env s file oflag mode)) ∧
    ((s.orig Sym.openat || env.resolve Sym.openat) = true →
      RegistersIffClassified env s
        (afterReal env s Sym.openat (RealCall.openat dirfd file oflag (modeArg oflag mode)))
        file oflag (env.real s.calls (RealCall.openat dirfd file oflag (modeArg oflag mode)))
        (openat env s dirfd file oflag mode)) ∧
    ((s.orig Sym.openat64 || env.resolve Sym.openat64) = true →
      RegistersIffClassified env s
        (afterReal env s Sym.openat64 (RealCall.openat64 dirfd file oflag (modeArg oflag mode)))
        file oflag
        (env.real s.calls (RealCall.openat64 dirfd file oflag (modeArg oflag mode)))
        (openat64 env s dirfd file oflag mode)) := by
  refine ⟨?_, ?_, ?_, ?_⟩
  · intro h
    rw [open__eq env s file oflag mode h]
    exact registerIfSaveFile_spec env s _ file oflag _ (afterReal_posix_savefiles env s _ _)
  · intro h
    rw [open64_eq env s file oflag mode h]
    exact registerIfSaveFile_spec env s _ file oflag _ (afterReal_posix_savefiles env s _ _)
  · intro h
    rw [openat_eq env s dirfd file oflag mode h]
    exact registerIfSaveFile_spec env s _ file oflag _ (afterReal_posix_savefiles env s _ _)
  · intro h
    rw [openat64_eq env s dirfd file oflag mode h]
    exact registerIfSaveFile_spec env s _ file oflag _ (afterReal_posix_savefiles env s _ _)

/-- Witness of `open_family_registers`: the non-existent `save.dat` is opened with
`O_WRONLY|O_CREAT` and the real `open` returns 3. -/
theorem open_family_registers_witness :
    ∃ s1, open_ ⟨fun _ => true, fun _ _ => 3, fun _ _ => StatResult.fail ENOENT⟩
        ⟨true, fun _ => true, [], [], true⟩ (some "save.dat") 0x41 420 = .ok (3, s1) ∧
      s1.posix_savefiles.lookup 3 = some "save.dat" := by
  obtain ⟨s1, h1, _, h3⟩ := (open_family_registers
    ⟨fun _ => true, fun _ _ => 3, fun _ _ => StatResult.fail ENOENT⟩
    ⟨true, fun _ => true, [], [], true⟩ (some "save.dat") 0x41 420 0).1 rfl
  obtain ⟨p, hp, hl⟩ := h3 (by decide)
  cases hp
  exact ⟨s1, h1, hl⟩

/-! ### The stdio hooks -/

theorem ensureStdio_orig (env : Env) (s : State) (sym : Sym) (hmem : sym ∈ stdioSyms) :
    (ensureStdio env s sym).orig sym = (s.orig sym || env.resolve sym) := by
  unfold ensureStdio
  by_cases h : s.orig sym = true
  · simp [h]
  · simp only [stdioSyms, List.mem_cons, List.mem_singleton, List.not_mem_nil, or_false] at hmem
    rcases hmem with rfl | rfl | rfl | rfl | rfl | rfl | rfl <;>
      simp [h, link_stdiofileio, stdioSyms, LINK_NAMESPACE]

theorem ensureStdio_calls (env : Env) (s : State) (sym : Sym) :
    (ensureStdio env s sym).calls = s.calls := by
  unfold ensureStdio link_stdiofileio; split <;> rfl

theorem ensureStdio_posix_savefiles (env : Env) (s : State) (sym : Sym) :
    (ensureStdio env s sym).posix_savefiles = s.posix_savefiles := by
  unfold ensureStdio link_stdiofileio; split <;> rfl

theorem callOrig_ensureStdio (env : Env) (s : State) (sym : Sym) (c : RealCall)
    (hmem : sym ∈ stdioSyms) (havail : (s.orig sym || env.resolve sym) = true) :
    callOrig env (ensureStdio env s sym) sym c =
      .ok (env.real s.calls c, { ensureStdio env s sym with calls := s.calls ++ [c] }) := by
  have ho := ensureStdio_orig env s sym hmem
  rw [havail] at ho
  unfold callOrig
  rw [if_pos ho, ensureStdio_calls]

/-- C13 fails as stated.  Virtualization is enabled and `save.dat` does not exist, so both
classifiers take it for a save file when opened for writing.  The hook `fopen` returns the
stream 42 of the real `fopen`; the hook `fwrite` of 8 objects to that stream then makes the
real `fwrite` call and returns its result, 3. -/
theorem fwrite_counterexample :
    (isSaveFile ⟨fun _ => true, fun _ c => match c with | RealCall.fopen _ _ => 42 | _ => 3,
        fun _ _ => StatResult.fail ENOENT⟩ ⟨true, fun _ => true, [], [], true⟩
        (some "save.dat") 0x241).1 = true ∧
    SaveFileList.isSaveFile_modes ⟨true, id, fun _ => StatResult.fail ENOENT, fun _ => 0,
        fun e _ => e, fun e _ => e, fun e => (0, e), fun e => (0, e)⟩ [] (some "save.dat")
        "w" = true ∧
    ∃ s1 s2,
      fopen ⟨fun _ => true, fun _ c => match c with | RealCall.fopen _ _ => 42 | _ => 3,
        fun _ _ => StatResult.fail ENOENT⟩ ⟨true, fun _ => true, [], [], true⟩
        (some "save.dat") "w" = .ok (42, s1) ∧
      s1.prevent_savefiles = true ∧
      fwrite ⟨fun _ => true, fun _ c => match c with | RealCall.fopen _ _ => 42 | _ => 3,
        fun _ _ => StatResult.fail ENOENT⟩ s1 1000 1 8 42 = .ok (3, s2) ∧
      s2.calls = [RealCall.fopen (some "save.dat") "w", RealCall.fwrite 1000 1 8 42] := by
  refine ⟨by decide, by decide, _, _, rfl, rfl, rfl, rfl⟩

/-- C13, amended.  Whatever `prevent_savefiles` is and whatever the stream: when the real
`fwrite` is available, the hook `fwrite` makes the one real call
`fwrite(ptr, size, n, stream)` and returns its result; and when the real `fopen` (`fopen64`)
is available, the hook `fopen` (`fopen64`) makes the one real call, returns its stream and
leaves `posix_savefiles` as it was. -/
theorem fwrite_forwards (env : Env) (s : State) (ptr size n stream : Nat)
    (filename : Option String) (modes : String) :
    ((s.orig Sym.fwrite || env.resolve Sym.fwrite) = true →
      fwrite env s ptr size n stream =
        .ok (env.real s.calls (RealCall.fwrite ptr size n stream),
          { ensureStdio env s Sym.fwrite with
            calls := s.calls ++ [RealCall.fwrite ptr size n stream] })) ∧
    ((s.orig Sym.fopen || env.resolve Sym.fopen) = true →
      fopen env s filename modes =
        .ok (env.real s.calls (RealCall.fopen filename modes),
          { ensureStdio env s Sym.fopen with
            calls := s.calls ++ [RealCall.fopen filename modes] }) ∧
      (ensureStdio env s Sym.fopen).posix_savefiles = s.posix_savefiles) ∧
    ((s.orig Sym.fopen64 || env.resolve Sym.fopen64) = true →
      fopen64 env s filename modes =
        .ok (env.real s.calls (RealCall.fopen64 filename modes),
          { ensureStdio env s Sym.fopen64 with
            calls := s.calls ++ [RealCall.fopen64 filename modes] }) ∧
      (ensureStdio env s Sym.fopen64).posix_savefiles = s.posix_savefiles) := by
  refine ⟨?_, ?_, ?_⟩
  · intro h
    have ho := ensureStdio_orig env s Sym.fwrite (by simp [stdioSyms])
    rw [h] at ho
    unfold fwrite
    simp only [ho, Bool.not_true, Bool.false_eq_true, if_false]
    exact callOrig_ensureStdio env s Sym.fwrite _ (by simp [stdioSyms]) h
  · intro h
    have ho := ensureStdio_orig env s Sym.fopen (by simp [stdioSyms])
    rw [h] at ho
    refine ⟨?_, ensureStdio_posix_savefiles env s Sym.fopen⟩
    unfold fopen
    simp only [ho, Bool.not_true, Bool.false_eq_true, if_false]
    exact callOrig_ensureStdio env s Sym.fopen _ (by simp [stdioSyms]) h
  · intro h
    have ho := ensureStdio_orig env s Sym.fopen64 (by simp [stdioSyms])
    rw [h] at ho
    refine ⟨?_, ensureStdio_posix_savefiles env s Sym.fopen64⟩
    unfold fopen64
    simp only [ho, Bool.not_true, Bool.false_eq_true, if_false]
    exact callOrig_ensureStdio env s Sym.fopen64 _ (by simp [stdioSyms]) h

/-- Witness of `fwrite_forwards`: 8 objects written to stream 42 with virtualization
enabled; the real `fwrite` reports 8. -/
theorem fwrite_forwards_witness :
    fwrite ⟨fun _ => true, fun _ _ => 8, fun _ _ => StatResult.fail ENOENT⟩
        ⟨true, fun _ => true, [], [], true⟩ 1000 1 8 42 =
      .ok (8, { ensureStdio ⟨fun _ => true, fun _ _ => 8, fun _ _ => StatResult.fail ENOENT⟩
          ⟨true, fun _ => true, [], [], true⟩ Sym.fwrite with
        calls := [RealCall.fwrite 1000 1 8 42] }) :=
  (fwrite_forwards ⟨fun _ => true, fun _ _ => 8, fun _ _ => StatResult.fail ENOENT⟩
    ⟨true, fun _ => true, [], [], true⟩ 1000 1 8 42 none "").1 rfl

/-! ### Failed opens -/

theorem registerIfSaveFile_fails (env : Env) (s s2 : State) (file : Option String)
    (oflag : Nat) (hp : s2.prevent_savefiles = s.prevent_savefiles)
    (hi : s2.inited = s.inited) (hm : s2.posix_savefiles = s.posix_savefiles)
    (hc : (isSaveFile env s2 file oflag).1 = false) :
    FailsWithoutRegistering s file (.ok (registerIfSaveFile env s2 file oflag (-1))) := by
  have hmap : (registerIfSaveFile env s2 file oflag (-1)).2.posix_savefiles =
      (if (s.prevent_savefiles && file.isSome && !s.inited) = true then []
        else s.posix_savefiles) := by
    rw [registerIfSaveFile_unclassified env s2 file oflag (-1) hc,
      isSaveFile_posix_savefiles, hp, hi, hm]
  refine ⟨(registerIfSaveFile env s2 file oflag (-1)).2,
    congrArg Except.ok (Prod.ext (registerIfSaveFile_fst env s2 file oflag (-1)) rfl),
    hmap, ?_⟩
  intro hfresh
  unfold registered at hfresh ⊢
  rw [hmap]
  split
  · rfl
  · exact hfresh

theorem registerCreated_null_fails (s s2 : State)
    (hm : s2.posix_savefiles = s.posix_savefiles) :
    FailsWithoutRegistering s none (.ok (registerCreated s2 none (-1))) := by
  refine ⟨s2, rfl, by simpa using hm, ?_⟩
  intro hfresh
  unfold registered at hfresh ⊢
  rw [hm]; exact hfresh

/-- C14 fails as stated.  With virtualization enabled, the real `open` of
`nodir/save.dat` for writing fails (returns -1) because the directory does not exist; `stat`
fails with `ENOENT`, the target is classified as a save file, and -1 becomes a key of the
map.  A later `write(-1, buf, 5)` returns 5 without any real `write`.  Likewise a failed
`creat` of a non-null path registers -1.  And in a fresh process, after `creat` has
registered descriptor 3, a failed read-only `open` is the first call to reach the
initialisation of `isSaveFile`, which empties the map. -/
theorem failed_open_counterexample :
    (∃ s1 s2,
      open_ ⟨fun _ => true, fun _ _ => -1, fun _ _ => StatResult.fail ENOENT⟩
        ⟨true, fun _ => true, [], [], true⟩ (some "nodir/save.dat") 1 0 = .ok (-1, s1) ∧
      s1.posix_savefiles = [(-1, "nodir/save.dat")] ∧
      write ⟨fun _ => true, fun _ _ => -1, fun _ _ => StatResult.fail ENOENT⟩ s1 (-1) 1000 5 =
        .ok (5, s2) ∧
      s2.calls = [RealCall.open_ (some "nodir/save.dat") 1 none]) ∧
    (∃ s1 s2,
      creat ⟨fun _ => true, fun _ _ => -1, fun _ _ => StatResult.fail ENOENT⟩
        ⟨true, fun _ => true, [], [], true⟩ (some "nodir/save.dat") 420 = .ok (-1, s1) ∧
      s1.posix_savefiles = [(-1, "nodir/save.dat")] ∧
      write ⟨fun _ => true, fun _ _ => -1, fun _ _ => StatResult.fail ENOENT⟩ s1 (-1) 1000 5 =
        .ok (5, s2) ∧
      s2.calls = [RealCall.creat (some "nodir/save.dat") 420]) ∧
    (∃ s1 s2,
      creat ⟨fun _ => true, fun _ c => match c with | RealCall.creat _ _ => 3 | _ => -1,
        fun _ _ => StatResult.fail ENOENT⟩
        ⟨true, fun _ => true, [], [], false⟩ (some "a.sav") 420 = .ok (3, s1) ∧
      s1.posix_savefiles = [(3, "a.sav")] ∧
      open_ ⟨fun _ => true, fun _ c => match c with | RealCall.creat _ _ => 3 | _ => -1,
        fun _ _ => StatResult.fail ENOENT⟩ s1 (some "b.txt") O_RDONLY 0 = .ok (-1, s2) ∧
      s2.posix_savefiles = []) := by
  refine ⟨⟨_, _, rfl, rfl, rfl, rfl⟩, ⟨_, _, rfl, rfl, rfl, rfl⟩, ⟨_, _, rfl, rfl, rfl, rfl⟩⟩

/-- C14, amended.  When the real `open`, `open64`, `openat` or `openat64` fails (returns -1)
and `isSaveFile(file, oflag)` does not classify the target as a save file, and when the real
`creat` or `creat64` fails on a null path: the hook returns -1 and leaves the descriptor map
as it was (emptied when the call is the first to reach the initialisation of `isSaveFile`),
so that -1 is not a key afterwards unless it was one before.  And in every state where -1 is
not a key and the real `write` is available, `write(-1, buf, n)` is handed to the real
`write`. -/
theorem failed_open_unclassified (env : Env) (s : State) (file : Option String)
    (oflag mode : Nat) (dirfd : Int) :
    ((s.orig Sym.open_ || env.resolve Sym.open_) = true →
      env.real s.calls (RealCall.open_ file oflag (modeArg oflag mode)) = -1 →
      (isSaveFile env (afterReal env s Sym.open_
        (RealCall.open_ file oflag (modeArg oflag mode))) file oflag).1 = false →
      FailsWithoutRegistering s file (open_ env s file oflag mode)) ∧
    ((s.orig Sym.open64 || env.resolve Sym.open64) = true →
      env.real s.calls (RealCall.open64 file oflag (modeArg oflag mode)) = -1 →
      (isSaveFile env (afterReal env s Sym.open64
        (RealCall.open64 file oflag (modeArg oflag mode))) file oflag).1 = false →
      FailsWithoutRegistering s file (open64 env s file oflag mode)) ∧
    ((s.orig Sym.openat || env.resolve Sym.openat) = true →
      env.real s.calls (RealCall.openat dirfd file oflag (modeArg oflag mode)) = -1 →
      (isSaveFile env (afterReal env s Sym.openat
        (RealCall.openat dirfd file oflag (modeArg oflag mode))) file oflag).1 = false →
      FailsWithoutRegistering s file (openat env s dirfd file oflag mode)) ∧
    ((s.orig Sym.openat64 || env.resolve Sym.openat64) = true →
      env.real s.calls (RealCall.openat64 dirfd file oflag (modeArg oflag mode)) = -1 →
      (isSaveFile env (afterReal env s Sym.openat64
        (RealCall.openat64 dirfd file oflag (modeArg oflag mode))) file oflag).1 = false →
      FailsWithoutRegistering s file (openat64 env s dirfd file oflag mode)) ∧
    ((s.orig Sym.creat || env.resolve Sym.creat) = true →
      env.real s.calls (RealCall.creat none mode) = -1 →
      FailsWithoutRegistering s none (creat env s none mode)) ∧
    ((s.orig Sym.creat64 || env.resolve Sym.creat64) = true →
      env.real s.calls (RealCall.creat64 none mode) = -1 →
      FailsWithoutRegistering s none (creat64 env s none mode)) ∧
    (∀ (s1 : State) (buf n : Nat),
      (s1.orig Sym.write || env.resolve Sym.write) = true → registered s1 (-1) = false →
      write env s1 (-1) buf n =
        .ok (env.real s1.calls (RealCall.write (-1) buf n),
          { ensurePosix env s1 Sym.write with
            calls := s1.calls ++ [RealCall.write (-1) buf n] })) := by
  refine ⟨?_, ?_, ?_, ?_, ?_, ?_, ?_⟩
  · intro h hr hc
    rw [open__eq env s file oflag mode h, hr]
    exact registerIfSaveFile_fails env s _ file oflag (afterReal_prevent env s _ _)
      (afterReal_inited env s _ _) (afterReal_posix_savefiles env s _ _) hc
  · intro h hr hc
    rw [open64_eq env s file oflag mode h, hr]
    exact registerIfSaveFile_fails env s _ file oflag (afterReal_prevent env s _ _)
      (afterReal_inited env s _ _) (afterReal_posix_savefiles env s _ _) hc
  · intro h hr hc
    rw [openat_eq env s dirfd file oflag mode h, hr]
    exact registerIfSaveFile_fails env s _ file oflag (afterReal_prevent env s _ _)
      (afterReal_inited env s _ _) (afterReal_posix_savefiles env s _ _) hc
  · intro h hr hc
    rw [openat64_eq env s dirfd file oflag mode h, hr]
    exact registerIfSaveFile_fails env s _ file oflag (afterReal_prevent env s _ _)
      (afterReal_inited env s _ _) (afterReal_posix_savefiles env s _ _) hc
  · intro h hr
    rw [creat_eq env s none mode h, hr]
    exact registerCreated_null_fails s _ (afterReal_posix_savefiles env s _ _)
  · intro h hr
    rw [creat64_eq env s none mode h, hr]
    exact registerCreated_null_fails s _ (afterReal_posix_savefiles env s _ _)
  · intro s1 buf n hw hreg
    have ho := ensurePosix_orig_write env s1
    rw [hw] at ho
    have hreg1 : registered (ensurePosix env s1 Sym.write) (-1) = false := by
      unfold registered at hreg ⊢
      rw [ensurePosix_savefiles]; exact hreg
    simp [write, ho, hreg1, callOrig, ensurePosix_calls]

/-- Witness of `failed_open_unclassified`: the real `open` of `nodir/save.dat`, read-only,
fails while descriptor 3 is registered; the map keeps its one entry. -/
theorem failed_open_unclassified_witness :
    FailsWithoutRegistering ⟨true, fun _ => true, [(3, "old.sav")], [], true⟩
      (some "nodir/save.dat")
      (open_ ⟨fun _ => true, fun _ _ => -1, fun _ _ => StatResult.fail ENOENT⟩
        ⟨true, fun _ => true, [(3, "old.sav")], [], true⟩ (some "nodir/save.dat")
        O_RDONLY 0) :=
  (failed_open_unclassified ⟨fun _ => true, fun _ _ => -1, fun _ _ => StatResult.fail ENOENT⟩
    ⟨true, fun _ => true, [(3, "old.sav")], [], true⟩ (some "nodir/save.dat")
    O_RDONLY 0 0).1 rfl rfl (by decide)

/-! ### The SDL hooks -/

theorem replaceWrite_eq (s : State) (handle : Option SDL_RWops) :
    replaceWrite s handle =
      if s.prevent_savefiles = true then handle
      else handle.map (fun h => { h with write := WriteCallback.dummyWrite }) := by
  unfold replaceWrite
  cases s.prevent_savefiles <;> cases handle <;> rfl

/-- C15: the code departs from the claim.  With `config.prevent_savefiles` enabled, the hooks
`SDL_RWFromFile` and `SDL_RWFromFP` return the real handle with its own write callback
still in place; with `config.prevent_savefiles` disabled they install `dummyWrite`, which
returns the object count `num` without any I/O.  The test in the source is
`!config.prevent_savefiles`. -/
theorem sdl_hooks_inverted :
    (∃ s1, SDL_RWFromFile ⟨fun _ _ => some ⟨WriteCallback.real 1, 0⟩, fun _ _ => none⟩
        ⟨true, fun _ => true, [], [], false⟩ (some "save.dat") (some "wb") =
      .ok (some ⟨WriteCallback.real 1, 0⟩, s1)) ∧
    (∃ s1, SDL_RWFromFP ⟨fun _ _ => none, fun _ _ => some ⟨WriteCallback.real 1, 0⟩⟩
        ⟨true, fun _ => true, [], [], false⟩ 42 true =
      .ok (some ⟨WriteCallback.real 1, 0⟩, s1)) ∧
    (∃ s1, SDL_RWFromFile ⟨fun _ _ => some ⟨WriteCallback.real 1, 0⟩, fun _ _ => none⟩
        ⟨false, fun _ => true, [], [], false⟩ (some "save.dat") (some "wb") =
      .ok (some ⟨WriteCallback.dummyWrite, 0⟩, s1)) ∧
    (∃ s1, SDL_RWFromFP ⟨fun _ _ => none, fun _ _ => some ⟨WriteCallback.real 1, 0⟩⟩
        ⟨false, fun _ => true, [], [], false⟩ 42 true =
      .ok (some ⟨WriteCallback.dummyWrite, 0⟩, s1)) ∧
    dummyWrite ⟨WriteCallback.dummyWrite, 0⟩ 1000 4 8 = 8 := by
  refine ⟨⟨_, rfl⟩, ⟨_, rfl⟩, ⟨_, rfl⟩, ⟨_, rfl⟩, rfl⟩

end Fileio

/-! ### Renaming a save file onto itself -/

/-- The value of `renameSaveFile(a, b)` when both paths have the canonical form `c`: every
entity keyed by `c` is erased before the source is looked up, so the lookup fails. -/
theorem renameSaveFile_same_canon (w : SaveFileList.World) (reg : SaveFileList.Registry)
    (a b : Option String) (c : String)
    (ha : w.canonicalizeFile a = some c) (hb : w.canonicalizeFile b = some c) :
    SaveFileList.renameSaveFile w reg a b =
      if w.prevent_savefiles = true then
        (w.access_W_OK a,
          reg.filter (fun e => e.filename != c) ++
            [{ ((SaveFileList.SaveFile.new w a).open_modes w "rb").2 with filename := c }])
      else (1, reg.filter (fun e => e.filename != c)) := by
  have hfb : (fun s : SaveFileList.SaveFile => !s.isSameFile w b) =
      (fun e => e.filename != c) := by
    funext e; rw [SaveFileList.isSameFile_of_canon w e b c hb]; rfl
  have hnone : SaveFileList.forFirst (fun e => e.isSameFile w a)
      (fun e => ((0 : Int), { e with filename := c }))
      (reg.filter (fun e => e.filename != c)) = none := by
    rw [SaveFileList.forFirst_eq_none]
    intro e he
    rw [SaveFileList.isSameFile_of_canon w e a c ha]
    have := (List.mem_filter.mp he).2
    simpa [bne] using this
  unfold SaveFileList.renameSaveFile
  simp only [hb, hfb, hnone]

/-- C16: the code departs from the claim.  The removed save file `/a` is tracked with
descriptor 3 and is renamed onto itself under the spelling `./a`.  With
`shared_config.prevent_savefiles` disabled the call returns 1 and the registry is empty; with
it enabled the call returns the value of `access` (here -1) and the registry holds a newly
constructed entity in place of the old one (here with descriptor 7 and not removed). -/
theorem rename_onto_itself :
    SaveFileList.renameSaveFile ⟨false, fun p => if p = some "./a" then some "/a" else p,
        fun _ => StatResult.fail ENOENT, fun _ => -1, fun e _ => { e with fd := 7 },
        fun e _ => e, fun e => (0, e), fun e => (0, e)⟩
        [⟨"/a", 3, 0, true⟩] (some "/a") (some "./a") = (1, []) ∧
    SaveFileList.renameSaveFile ⟨true, fun p => if p = some "./a" then some "/a" else p,
        fun _ => StatResult.fail ENOENT, fun _ => -1, fun e _ => { e with fd := 7 },
        fun e _ => e, fun e => (0, e), fun e => (0, e)⟩
        [⟨"/a", 3, 0, true⟩] (some "/a") (some "./a") = (-1, [⟨"/a", 7, 0, false⟩]) := by
  refine ⟨by decide, by decide⟩

end LibTAS
